import Mathlib

/-!
Verification development for the `cargo-cgp` diagnostic correlation and
explanation engine.

The Rust sources are shallowly embedded.  Strings are modelled as `List Char`
(one list element per Unicode scalar value), so every byte index produced by
`str::find` on the ASCII search patterns used by the program coincides with a
character index; all scanning loops of the source operate on these indices.
Where the distinction between bytes and characters is itself the property
under study (the byte-indexed loop of `extract_chars_from_pattern`), a second,
byte-accurate model over UTF-8 byte lists is given further below.

Rust `char::is_alphabetic`, `char::is_alphanumeric`, `char::is_uppercase` and
`char::is_whitespace` are modelled by the corresponding ASCII predicates of
`Char`; the embedding is exact on ASCII text, which is the domain on which the
byte-indexed source loops do not fault.  Integer parsing ignores `usize`
overflow.  Functions that only perform file or terminal input/output
(snippet reading, final report printing) are outside the embedded core, as the
specification itself places them with the surrounding collaborators.
-/

/-- Model of a Rust string: its list of characters. -/
abbrev Str := List Char

/-- The apostrophe character, written via its code point. -/
def quoteChar : Char := Char.ofNat 39

/-- Rust `str::find` for a substring pattern: index of the first occurrence. -/
def strFind : Str → Str → Option Nat
  | [], needle => if needle.isEmpty then some 0 else none
  | c :: rest, needle =>
    if needle.isPrefixOf (c :: rest) then some 0
    else (strFind rest needle).map (· + 1)

/-- Rust `str::rfind` for a substring pattern: index of the last occurrence. -/
def strRfind : Str → Str → Option Nat
  | [], needle => if needle.isEmpty then some 0 else none
  | c :: rest, needle =>
    match (strRfind rest needle).map (· + 1) with
    | some i => some i
    | none => if needle.isPrefixOf (c :: rest) then some 0 else none

/-- Rust `str::contains` for a substring pattern. -/
def strContains (hay needle : Str) : Bool :=
  (strFind hay needle).isSome

/-- Drops matching characters from the end of a list. -/
def dropWhileEnd (p : Char → Bool) (l : Str) : Str :=
  (l.reverse.dropWhile p).reverse

/-- Rust `str::trim`: removes whitespace from both ends. -/
def trimStr (l : Str) : Str :=
  dropWhileEnd Char.isWhitespace (l.dropWhile Char.isWhitespace)

/-- Rust `str::trim_end_matches` for a single-character pattern. -/
def trimEndMatchesChar (c : Char) (l : Str) : Str :=
  dropWhileEnd (fun x => x == c) l

/-- Rust `str::trim_matches` with a character predicate: trims both ends. -/
def trimMatchesPred (p : Char → Bool) (l : Str) : Str :=
  dropWhileEnd p (l.dropWhile p)

/-- Worker for `splitWhitespace`; the accumulator holds the current word
reversed. -/
def splitWsGo : Str → Str → List Str
  | [], acc => if acc.isEmpty then [] else [acc.reverse]
  | c :: rest, acc =>
    if c.isWhitespace then
      if acc.isEmpty then splitWsGo rest []
      else acc.reverse :: splitWsGo rest []
    else splitWsGo rest (c :: acc)

/-- Rust `str::split_whitespace`: whitespace-separated words, no empties. -/
def splitWhitespace (l : Str) : List Str :=
  splitWsGo l []

/-- Worker for `splitOnPred`. -/
def splitOnPredGo (p : Char → Bool) : Str → Str → List Str
  | [], acc => [acc.reverse]
  | c :: rest, acc =>
    if p c then acc.reverse :: splitOnPredGo p rest []
    else splitOnPredGo p rest (c :: acc)

/-- Rust `str::split` with a character predicate: separators are removed,
empty pieces are kept. -/
def splitOnPred (p : Char → Bool) (l : Str) : List Str :=
  splitOnPredGo p l []

/-- Worker for `splitOnSub`, structurally recursive on a fuel that bounds the
number of characters still to be consumed. -/
def splitOnSubFuel (pat : Str) : Nat → Str → List Str
  | _, [] => [[]]
  | 0, l => [l]
  | fuel + 1, c :: rest =>
    if pat ≠ [] ∧ pat.isPrefixOf (c :: rest) then
      [] :: splitOnSubFuel pat fuel (rest.drop (pat.length - 1))
    else
      match splitOnSubFuel pat fuel rest with
      | [] => [[c]]
      | h :: t => (c :: h) :: t

/-- Rust `str::split` with a non-empty substring pattern. -/
def splitOnSub (pat l : Str) : List Str :=
  splitOnSubFuel pat l.length l

/-- Rust `s.split("::").last().unwrap_or(s)`: the piece after the last
`::` separator. -/
def simpleName (l : Str) : Str :=
  (splitOnSub ("::".toList) l).getLastD l

/-- Worker for `replaceAll`, structurally recursive on a fuel that bounds the
number of characters still to be consumed. -/
def replaceAllFuel (pat rep : Str) : Nat → Str → Str
  | _, [] => []
  | 0, l => l
  | fuel + 1, c :: rest =>
    if pat ≠ [] ∧ pat.isPrefixOf (c :: rest) then
      rep ++ replaceAllFuel pat rep fuel (rest.drop (pat.length - 1))
    else
      c :: replaceAllFuel pat rep fuel rest

/-- Rust `str::replace` for a non-empty pattern: replaces every
non-overlapping occurrence, scanning left to right. -/
def replaceAll (pat rep l : Str) : Str :=
  replaceAllFuel pat rep l.length l

/-- Rust `usize::from_str` on an already trimmed string: an optional leading
plus sign followed by at least one digit (overflow is not modelled). -/
def parseUsizeStr (l : Str) : Option Nat :=
  let digits := match l with
    | c :: rest => if c = '+' then rest else l
    | [] => l
  if digits ≠ [] ∧ digits.all Char.isDigit then
    some (digits.foldl (fun a c => a * 10 + (c.toNat - 48)) 0)
  else none

/-- ASCII lower-casing, as used by Rust `eq_ignore_ascii_case`. -/
def asciiLower (c : Char) : Char :=
  if 'A' ≤ c ∧ c ≤ 'Z' then Char.ofNat (c.toNat + 32) else c

/-- Rust `str::eq_ignore_ascii_case`. -/
def eqIgnoreAsciiCase (a b : Str) : Bool :=
  a.map asciiLower == b.map asciiLower

namespace CgpPatterns

/-- Information about a component extracted from CGP patterns
(`cgp_patterns.rs`, struct `ComponentInfo`). -/
structure ComponentInfo where
  component_type : Str
  provider_trait : Option Str
deriving DecidableEq, Repr

/-- Information about a field extracted from HasField patterns
(`cgp_patterns.rs`, struct `FieldInfo`).  The source struct has exactly these
three fields; it has no redaction flag. -/
structure FieldInfo where
  field_name : Str
  is_complete : Bool
  target_type : Str
deriving DecidableEq, Repr

/-- Information about provider trait relationships from IsProviderFor
patterns (`cgp_patterns.rs`, struct `ProviderRelationship`). -/
structure ProviderRelationship where
  provider_type : Str
  component : Str
  context : Str
deriving DecidableEq, Repr

/-- Scanner of `extract_balanced_generic`: relative index of the closing `>`
bringing the nesting depth (initially the given value, 1 at the top call) to
zero, or `none` when the brackets never balance.  The source loop only
reaches depth values of at least one, so natural-number depth is exact. -/
def findClose : Str → Nat → Option Nat
  | [], _ => none
  | c :: rest, depth =>
    if c = '<' then (findClose rest (depth + 1)).map (· + 1)
    else if c = '>' then
      if depth = 1 then some 0
      else (findClose rest (depth - 1)).map (· + 1)
    else (findClose rest depth).map (· + 1)

/-- Embeds `extract_balanced_generic` (`cgp_patterns.rs`).  The scan starts at
`start_pos`, just after an opening `<` that the caller located; on balanced
input, the substring up to the matching `>` is returned trimmed; on
unbalanced input, the remainder with all trailing `>` removed, trimmed. -/
def extract_balanced_generic (text : Str) (start_pos : Nat) : Option Str :=
  let l := text.drop start_pos
  match findClose l 1 with
  | some i => some (trimStr (l.take i))
  | none => some (trimStr (trimEndMatesFix l))
where
  /-- Rust `trim_end_matches` applied before the final trim in the
  unbalanced branch. -/
  trimEndMatesFix (l : Str) : Str := trimEndMatchesChar '>' l

/-- Scanner of `find_comma_at_depth`: relative index of the first comma at
bracket depth zero.  Depth is a Rust `i32` and may go negative on stray
closing brackets, hence `Int`. -/
def findCommaGo : Str → Int → Option Nat
  | [], _ => none
  | c :: rest, depth =>
    if c = '<' then (findCommaGo rest (depth + 1)).map (· + 1)
    else if c = '>' then (findCommaGo rest (depth - 1)).map (· + 1)
    else if c = ',' ∧ depth = 0 then some 0
    else (findCommaGo rest depth).map (· + 1)

/-- Embeds `find_comma_at_depth` (`cgp_patterns.rs`). -/
def find_comma_at_depth (start_pos : Nat) (text : Str) : Option Nat :=
  (findCommaGo (text.drop start_pos) 0).map (· + start_pos)

/-- Embeds `strip_module_prefixes` (`cgp_patterns.rs`): removes every
occurrence of `cgp::prelude::`, then every occurrence of `cgp::`. -/
def strip_module_prefixes (message : Str) : Str :=
  replaceAll ("cgp::".toList) [] (replaceAll ("cgp::prelude::".toList) [] message)

/-- Embeds `derive_provider_trait_name` (`cgp_patterns.rs`). -/
def derive_provider_trait_name (component_name : Str) : Option Str :=
  let fallback :=
    if strContains component_name ("Component".toList) then
      match strRfind component_name ("Component".toList) with
      | some pos =>
        let before := component_name.take pos
        if before ≠ [] then some before else none
      | none => none
    else none
  if ("Component".toList).isSuffixOf component_name then
    let stripped := component_name.take (component_name.length - 9)
    if stripped ≠ [] then some stripped else fallback
  else fallback

/-- Reverse walk of `extract_component_type_name`: processes the reversed
indexed characters, tracking bracket depth (a Rust `i32`, may go negative),
and returns the start index of the component reference. -/
def ctnWalk : List (Nat × Char) → Int → Nat
  | [], _ => 0
  | (i, ch) :: rest, depth =>
    if ch = '>' then ctnWalk rest (depth + 1)
    else if ch = '<' then ctnWalk rest (depth - 1)
    else if depth = 0 ∧ ¬(ch.isAlphanum ∨ ch = '_') then i + 1
    else ctnWalk rest depth

/-- Embeds `extract_component_type_name` (`cgp_patterns.rs`). -/
def extract_component_type_name (text : Str) : Option Str :=
  if ("Component".toList).isSuffixOf text && !(text.contains '<') then
    some text
  else
    match strRfind text ("Component".toList) with
    | some pos =>
      let before := text.take (pos + 9)
      some (before.drop (ctnWalk before.enum.reverse 0))
    | none => none

/-- Embeds `extract_component_from_can_use` (`cgp_patterns.rs`). -/
def extract_component_from_can_use (message : Str) : Option ComponentInfo := do
  let start ← strFind message ("CanUseComponent<".toList)
  let component_type ← extract_balanced_generic message (start + 16)
  some ⟨component_type, derive_provider_trait_name component_type⟩

/-- Embeds `extract_component_info` (`cgp_patterns.rs`): the CanUseComponent
pattern first, then a scan of whitespace-separated words for the
`*Component` naming convention. -/
def extract_component_info (message : Str) : Option ComponentInfo :=
  match extract_component_from_can_use message with
  | some info => some info
  | none =>
    (splitWhitespace message).findSome? fun word =>
      let clean_word :=
        trimMatchesPred (fun c => !(c.isAlphanum || c == '<' || c == '>' || c == ',')) word
      if strContains clean_word ("Component".toList) then
        (extract_component_type_name clean_word).map fun component_type =>
          ⟨component_type, derive_provider_trait_name component_type⟩
      else none

/-- The seven-character pattern `Chars<` followed by an apostrophe. -/
def charsQuotePat : Str := ("Chars<".toList) ++ [quoteChar]

/-- Loop body of `extract_chars_from_pattern`: advances the index one
position at a time over the whole text, collecting the character after each
`Chars<` apostrophe occurrence when it is alphabetic and neither an
apostrophe nor the `_` placeholder.  Fuel equals the text length. -/
def extractCharsGo (text : Str) : Nat → Nat → List Char → List Char
  | 0, _, acc => acc
  | fuel + 1, idx, acc =>
    if idx < text.length then
      let acc2 :=
        if charsQuotePat.isPrefixOf (text.drop idx) then
          match (text.drop (idx + 7)).head? with
          | some ch =>
            if ch ≠ quoteChar ∧ ch ≠ '_' ∧ ch.isAlpha then acc ++ [ch] else acc
          | none => acc
        else acc
      extractCharsGo text fuel (idx + 1) acc2
    else acc

/-- Embeds `extract_chars_from_pattern` (`cgp_patterns.rs`) at character
granularity (see the byte-accurate model below for the faulting behaviour of
the byte-indexed source loop on non-ASCII text). -/
def extract_chars_from_pattern (text : Str) : List Char :=
  extractCharsGo text text.length 0 []

/-- Embeds `extract_symbol_length` (`cgp_patterns.rs`). -/
def extract_symbol_length (text : Str) : Option Nat := do
  let start ← strFind text ("Symbol<".toList)
  let after_symbol := text.drop (start + 7)
  let comma_pos ← strFind after_symbol (",".toList)
  parseUsizeStr (trimStr (after_symbol.take comma_pos))

/-- The part of the message before `but trait`, on which
`extract_field_name_from_symbol` works. -/
def relevantSymbolPart (message : Str) : Str :=
  match strFind message ("but trait".toList) with
  | some pos => message.take pos
  | none => message

/-- Embeds `extract_field_name_from_symbol` (`cgp_patterns.rs`): returns the
collected field name and the completeness bit, comparing the collected length
with the declared `Symbol` length. -/
def extract_field_name_from_symbol (message : Str) : Option (Str × Bool) :=
  let relevant_part := relevantSymbolPart message
  match extract_symbol_length relevant_part with
  | none => none
  | some expected_length =>
    let chars := extract_chars_from_pattern relevant_part
    if chars.isEmpty then none
    else some (chars, chars.length == expected_length)

/-- Embeds `extract_type_from_not_implemented` (`cgp_patterns.rs`). -/
def extract_type_from_not_implemented (message : Str) : Option Str := do
  let start ← strFind message ("is not implemented for `".toList)
  let after_start := message.drop (start + 24)
  let e ← strFind after_start ("`".toList)
  some (simpleName (after_start.take e))

/-- Embeds `extract_type_from_for_to_implement` (`cgp_patterns.rs`). -/
def extract_type_from_for_to_implement (message : Str) : Option Str := do
  let start ← strFind message ("for `".toList)
  let after_start := message.drop (start + 5)
  let e ← strFind after_start ("` to".toList)
  some (simpleName (after_start.take e))

/-- Embeds `extract_provider_relationship` (`cgp_patterns.rs`). -/
def extract_provider_relationship (message : Str) : Option ProviderRelationship :=
  if !strContains message ("IsProviderFor".toList) then none
  else do
    let provider_type ← extract_type_from_for_to_implement message
    let start ← strFind message ("IsProviderFor<".toList)
    let after_start := start + 14
    let comma_pos ← find_comma_at_depth after_start message
    let component := trimStr ((message.drop after_start).take (comma_pos - after_start))
    let context ← extract_balanced_generic message (comma_pos + 1)
    some ⟨provider_type, component, context⟩

/-- Embeds `extract_consumer_trait` (`cgp_patterns.rs`). -/
def extract_consumer_trait (message : Str) : Option Str := do
  let start ← strFind message ("required by a bound in `".toList)
  let after_start := message.drop (start + 24)
  let e ← strFind after_start ("`".toList)
  some (after_start.take e)

end CgpPatterns

/-- Diagnostic severity levels of the upstream wire records; only the `note`
and `help` levels are inspected by the embedded core. -/
inductive DiagnosticLevel where
  | error
  | warning
  | note
  | help
  | other
deriving DecidableEq, Repr

/-- A source span of an upstream diagnostic record.  The embedded core reads
the file name, start line and column, end column and primary flag; the
embedded-snippet text lines are consumed only by the out-of-scope file
input/output fallback of the renderer. -/
structure DiagnosticSpan where
  file_name : Str
  line_start : Nat
  column_start : Nat
  column_end : Nat
  is_primary : Bool
  label : Option Str
deriving DecidableEq, Repr

/-- A child note of an upstream diagnostic record; the core reads only its
level and message. -/
structure DiagnosticChild where
  level : DiagnosticLevel
  message : Str
deriving DecidableEq, Repr

/-- An upstream diagnostic record; `code` models the code string inside the
wire `DiagnosticCode` object. -/
structure Diagnostic where
  message : Str
  code : Option Str
  children : List DiagnosticChild
  spans : List DiagnosticSpan
deriving DecidableEq, Repr

namespace DiagnosticDb

open CgpPatterns

/-- Source code location (`diagnostic_db.rs`, struct `SourceLocation`). -/
structure SourceLocation where
  file : Str
  line : Nat
  column : Nat
deriving DecidableEq, Repr

/-- Key used to identify and group related diagnostics
(`diagnostic_db.rs`, struct `DiagnosticKey`). -/
structure DiagnosticKey where
  location : SourceLocation
  component : Option Str
deriving DecidableEq, Repr

/-- A merged diagnostic entry (`diagnostic_db.rs`, struct
`DiagnosticEntry`). -/
structure DiagnosticEntry where
  original : Diagnostic
  field_info : Option FieldInfo
  component_info : Option ComponentInfo
  consumer_trait : Option Str
  provider_relationships : List ProviderRelationship
  delegation_notes : List Str
  has_other_hasfield_impls : Bool
  primary_span : Option DiagnosticSpan
  error_code : Option Str
  message : Str
  is_root_cause : Bool
  suppressed : Bool
deriving DecidableEq, Repr

/-- The database content: the key-to-entry mapping of the `HashMap`, listed
in its iteration order.  A Rust `HashMap` iterates in an unspecified order
that is not a function of the key-value content alone, so distinct list
orders of the same pairs model the same map content; `add_diagnostic` keeps
keys unique. -/
abbrev Database := List (DiagnosticKey × DiagnosticEntry)

/-- Embeds `SourceLocation::from_span` (`diagnostic_db.rs`). -/
def SourceLocation.from_span (span : DiagnosticSpan) : SourceLocation :=
  ⟨span.file_name, span.line_start, span.column_start⟩

/-- Embeds `extract_component_info_from_diagnostic` (`diagnostic_db.rs`):
the main message first, then every child message, no level filter. -/
def extract_component_info_from_diagnostic (d : Diagnostic) : Option ComponentInfo :=
  match extract_component_info d.message with
  | some info => some info
  | none => d.children.findSome? fun child => extract_component_info child.message

/-- Embeds `extract_consumer_trait_from_diagnostic` (`diagnostic_db.rs`):
scans note-level children. -/
def extract_consumer_trait_from_diagnostic (d : Diagnostic) : Option Str :=
  d.children.findSome? fun child =>
    if child.level = DiagnosticLevel.note then extract_consumer_trait child.message
    else none

/-- Embeds `extract_provider_relationships_from_diagnostic`
(`diagnostic_db.rs`): collects from note-level children, in order. -/
def extract_provider_relationships_from_diagnostic (d : Diagnostic) :
    List ProviderRelationship :=
  d.children.filterMap fun child =>
    if child.level = DiagnosticLevel.note then extract_provider_relationship child.message
    else none

/-- Embeds `extract_delegation_notes` (`diagnostic_db.rs`). -/
def extract_delegation_notes (d : Diagnostic) : List Str :=
  (d.children.filter fun child =>
      child.level = DiagnosticLevel.note
        ∧ strContains child.message ("required for".toList)
        ∧ strContains child.message ("to implement".toList)).map
    fun child => child.message

/-- Embeds `extract_field_info` (`cgp_patterns.rs`): the first help-level
child mentioning `HasField` and `is not implemented for` decides the result;
extraction failures inside it yield `none` for the whole call. -/
def extract_field_info (d : Diagnostic) : Option FieldInfo :=
  match d.children.find? (fun child =>
      child.level = DiagnosticLevel.help
        ∧ strContains child.message ("HasField".toList)
        ∧ strContains child.message ("is not implemented for".toList)) with
  | some child => do
    let field_name_result ← extract_field_name_from_symbol child.message
    let target_type ← extract_type_from_not_implemented child.message
    some ⟨field_name_result.1, field_name_result.2, target_type⟩
  | none => none

/-- Embeds `has_other_hasfield_implementations` (`cgp_patterns.rs`). -/
def has_other_hasfield_implementations (d : Diagnostic) : Bool :=
  d.children.any fun child =>
    child.level = DiagnosticLevel.help
      ∧ (strContains child.message ("but trait `HasField".toList)
        ∨ strContains child.message ("the following other types implement trait".toList))

/-- Embeds `create_entry` (`diagnostic_db.rs`). -/
def create_entry (d : Diagnostic) (primary_span : DiagnosticSpan) : DiagnosticEntry :=
  let field_info := extract_field_info d
  { original := d
    field_info := field_info
    component_info := extract_component_info_from_diagnostic d
    consumer_trait := extract_consumer_trait_from_diagnostic d
    provider_relationships := extract_provider_relationships_from_diagnostic d
    delegation_notes := extract_delegation_notes d
    has_other_hasfield_impls := has_other_hasfield_implementations d
    primary_span := some primary_span
    error_code := d.code
    message := d.message
    is_root_cause := field_info.isSome
    suppressed := false }

/-- Appends each element of the second list that is not already present,
preserving order; the membership check sees earlier appends, exactly like
the push loops of `merge_diagnostic_info`. -/
def appendNovel {α : Type} [DecidableEq α] (xs news : List α) : List α :=
  news.foldl (fun acc r => if acc.contains r then acc else acc ++ [r]) xs

/-- First mutation of `merge_diagnostic_info` (`diagnostic_db.rs`): fill an
absent field info from the new diagnostic, promoting the entry to a root
cause. -/
def mergeFieldStep (e : DiagnosticEntry) (new : Diagnostic) : DiagnosticEntry :=
  if e.field_info.isNone then
    match extract_field_info new with
    | some field_info => { e with field_info := some field_info, is_root_cause := true }
    | none => e
  else e

/-- Second mutation of `merge_diagnostic_info`: fill an absent component
info. -/
def mergeComponentStep (e : DiagnosticEntry) (new : Diagnostic) : DiagnosticEntry :=
  if e.component_info.isNone then
    { e with component_info := extract_component_info_from_diagnostic new }
  else e

/-- Third mutation of `merge_diagnostic_info`: fill an absent consumer
trait. -/
def mergeConsumerStep (e : DiagnosticEntry) (new : Diagnostic) : DiagnosticEntry :=
  if e.consumer_trait.isNone then
    { e with consumer_trait := extract_consumer_trait_from_diagnostic new }
  else e

/-- Fourth mutation of `merge_diagnostic_info`: append the novel provider
relationships of the new diagnostic. -/
def mergeRelationshipsStep (e : DiagnosticEntry) (new : Diagnostic) : DiagnosticEntry :=
  { e with provider_relationships := appendNovel e.provider_relationships (extract_provider_relationships_from_diagnostic new) }

/-- Fifth mutation of `merge_diagnostic_info`: append the novel delegation
notes of the new diagnostic. -/
def mergeNotesStep (e : DiagnosticEntry) (new : Diagnostic) : DiagnosticEntry :=
  { e with delegation_notes := appendNovel e.delegation_notes (extract_delegation_notes new) }

/-- Sixth mutation of `merge_diagnostic_info`: raise the other-HasField
flag when the new diagnostic shows it. -/
def mergeHasFieldFlagStep (e : DiagnosticEntry) (new : Diagnostic) : DiagnosticEntry :=
  if !e.has_other_hasfield_impls then
    { e with has_other_hasfield_impls := has_other_hasfield_implementations new }
  else e

/-- Seventh mutation of `merge_diagnostic_info`: fill an absent error
code. -/
def mergeErrorCodeStep (e : DiagnosticEntry) (new : Diagnostic) : DiagnosticEntry :=
  if e.error_code.isNone then { e with error_code := new.code } else e

/-- Embeds `merge_diagnostic_info` (`diagnostic_db.rs`): the seven
sequential mutations of the source body, in source order; only absent
fields are filled, and relationship and note lists only grow by novel
elements. -/
def merge_diagnostic_info (existing : DiagnosticEntry) (new : Diagnostic) :
    DiagnosticEntry :=
  mergeErrorCodeStep
    (mergeHasFieldFlagStep
      (mergeNotesStep
        (mergeRelationshipsStep
          (mergeConsumerStep
            (mergeComponentStep
              (mergeFieldStep existing new) new) new) new) new) new) new

/-- Embeds `add_diagnostic` (`diagnostic_db.rs`): records without a primary
span are dropped; otherwise the grouping key is computed and the diagnostic
is merged into the entry at that key, or inserted as a fresh entry. -/
def add_diagnostic (db : Database) (d : Diagnostic) : Database :=
  match d.spans.find? (fun s => s.is_primary) with
  | none => db
  | some primary_span =>
    let location := SourceLocation.from_span primary_span
    let component_info : Option ComponentInfo :=
      match extract_component_info d.message with
      | some info => some info
      | none => d.children.findSome? fun child => extract_component_info child.message
    let key : DiagnosticKey := ⟨location, component_info.map (·.component_type)⟩
    if (db.map Prod.fst).contains key then
      db.map fun p => if p.1 = key then (p.1, merge_diagnostic_info p.2 d) else p
    else
      db ++ [(key, create_entry d primary_span)]

/-- Embeds `find_related_with_field_info` (`diagnostic_db.rs`): any entry at
the same primary location carrying field info. -/
def find_related_with_field_info (db : Database) (key : DiagnosticKey) :
    Option DiagnosticKey :=
  (db.find? fun other => other.1.location = key.location ∧ other.2.field_info.isSome).map
    (·.1)

/-- Suppression test of `deduplicate` (`diagnostic_db.rs`), evaluated for one
entry against the full database snapshot: the entry lacks field info, a
same-location entry carries field info, and the entry has no delegation
notes and no provider relationships at all. -/
def deduplicateShould (db : Database) (key : DiagnosticKey) (e : DiagnosticEntry) :
    Bool :=
  if e.field_info.isNone then
    match find_related_with_field_info db key with
    | some _ =>
      let has_useful_delegation_info :=
        !e.delegation_notes.isEmpty || !e.provider_relationships.isEmpty
      !has_useful_delegation_info
    | none => false
  else false

/-- Embeds `deduplicate` (`diagnostic_db.rs`): the keys to suppress are
collected against the unmodified database, then the flags are set. -/
def deduplicate (db : Database) : Database :=
  db.map fun p =>
    if deduplicateShould db p.1 p.2 then (p.1, { p.2 with suppressed := true }) else p

/-- Embeds `get_active_entries` (`diagnostic_db.rs`): the non-suppressed
entries in the iteration order of the map; no sorting is performed. -/
def get_active_entries (db : Database) : List DiagnosticEntry :=
  (db.map Prod.snd).filter fun e => !e.suppressed

/-- Embeds `get_all_entries` (`diagnostic_db.rs`). -/
def get_all_entries (db : Database) : List DiagnosticEntry :=
  db.map Prod.snd

end DiagnosticDb

namespace RootCause

open CgpPatterns

/-- Embeds `is_contained_type_parameter`, defined identically in
`root_cause.rs` and in `error_formatting.rs`: six textual containment
patterns, the last two anchored on one side only. -/
def is_contained_type_parameter (inner_type outer_type : Str) : Bool :=
  let patterns : List Str :=
    [ ("<".toList) ++ inner_type ++ (">".toList)
    , ("<".toList) ++ inner_type ++ (",".toList)
    , (", ".toList) ++ inner_type ++ (">".toList)
    , (", ".toList) ++ inner_type ++ (",".toList)
    , ("< ".toList) ++ inner_type
    , inner_type ++ (" >".toList) ]
  patterns.any fun pat => strContains outer_type pat

/-- Redundancy test of `deduplicate_provider_relationships`
(`root_cause.rs`): some other relationship, different as a value, shares the
component and context and textually contains this provider type. -/
def relRedundant (relationships : List ProviderRelationship)
    (rel : ProviderRelationship) : Bool :=
  relationships.any fun other =>
    if other = rel then false
    else if other.component ≠ rel.component ∨ other.context ≠ rel.context then false
    else is_contained_type_parameter rel.provider_type other.provider_type

/-- Loop of `deduplicate_provider_relationships`: keeps the relationships
that are not redundant with respect to the full input list, in order. -/
def dedupRelsGo (relationships : List ProviderRelationship) :
    List ProviderRelationship → List ProviderRelationship
  | [] => []
  | rel :: rest =>
    if relRedundant relationships rel then dedupRelsGo relationships rest
    else rel :: dedupRelsGo relationships rest

/-- Embeds `deduplicate_provider_relationships` (`root_cause.rs`). -/
def deduplicate_provider_relationships (relationships : List ProviderRelationship) :
    List ProviderRelationship :=
  dedupRelsGo relationships relationships

/-- Embeds `deduplicate_delegation_notes` (`root_cause.rs`): drops exact
duplicates, keeping first occurrences in order. -/
def deduplicate_delegation_notes (notes : List Str) : List Str :=
  notes.foldl (fun deduped note =>
    if deduped.contains note then deduped else deduped ++ [note]) []

end RootCause

namespace ErrorFormatting

open CgpPatterns

/-- Node in a dependency tree (`error_formatting.rs`, struct
`DependencyNode`). -/
inductive DependencyNode where
  | mk (description : Str) (trait_type : Option Str) (is_satisfied : Option Bool)
      (is_reference : Bool) (children : List DependencyNode)

/-- Description text of a node. -/
def DependencyNode.description : DependencyNode → Str
  | .mk d _ _ _ _ => d

/-- Trait-kind annotation of a node. -/
def DependencyNode.trait_type : DependencyNode → Option Str
  | .mk _ t _ _ _ => t

/-- Satisfaction marker of a node. -/
def DependencyNode.is_satisfied : DependencyNode → Option Bool
  | .mk _ _ s _ _ => s

/-- Reference flag of a node. -/
def DependencyNode.is_reference : DependencyNode → Bool
  | .mk _ _ _ r _ => r

/-- Children of a node. -/
def DependencyNode.children : DependencyNode → List DependencyNode
  | .mk _ _ _ _ c => c

/-- A nested consumer trait dependency extracted from delegation notes
(`error_formatting.rs`, struct `NestedConsumerTrait`). -/
structure NestedConsumerTrait where
  trait_name : Str
  context_type : Str
deriving DecidableEq, Repr

/-- An unsatisfied provider trait extracted from the main error message
(`error_formatting.rs`, struct `UnsatisfiedProvider`). -/
structure UnsatisfiedProvider where
  provider_type : Str
  trait_name : Str
  context_type : Str
deriving DecidableEq, Repr

/-- Modelled from the spec and from its uses in `error_formatting.rs`: one
consumer-interface dependency recorded on an entry, with the trait name
extracted from the diagnostics and the component name derived from it when
derivable.  The defining module of this record is not part of the source
snapshot; only `error_formatting.rs` reading `dep.trait_name` and
`dep.component_name` is. -/
structure ConsumerTraitDep where
  trait_name : Str
  component_name : Option Str
deriving DecidableEq, Repr

/-- Modelled from the spec: the field-information record consumed by
`error_formatting.rs`, which reads `field_info.has_unknown_chars` at its
redaction-warning section.  The spec states that a `has_unknown_chars` flag
is set whenever placeholder characters were skipped during field-name
reconstruction; the `FieldInfo` struct of the `cgp_patterns.rs` snapshot
lacks the flag, so it is modelled here as the spec describes it. -/
structure FieldInfoV2 where
  field_name : Str
  is_complete : Bool
  has_unknown_chars : Bool
  target_type : Str
deriving DecidableEq, Repr

/-- Modelled from the spec and from its uses in `error_formatting.rs` and
`root_cause.rs`: the diagnostic-entry shape consumed by the tree builder and
renderer (multiple component infos, multiple primary spans, a check trait
and recorded consumer-trait dependencies).  Its defining module is not part
of the source snapshot, which carries an earlier single-valued
`DiagnosticEntry`; every field below is read by `error_formatting.rs`. -/
structure EntryV2 where
  check_trait : Option Str
  field_info : Option FieldInfoV2
  component_infos : List ComponentInfo
  consumer_trait_dependencies : List ConsumerTraitDep
  provider_relationships : List ProviderRelationship
  delegation_notes : List Str
  message : Str
  primary_spans : List DiagnosticSpan
  error_code : Option Str
  has_other_hasfield_impls : Bool
deriving DecidableEq, Repr

/-- Embeds `has_non_basic_identifier_chars` (`error_formatting.rs`); Lean
`Char.isAlphanum` coincides with Rust `char::is_ascii_alphanumeric`. -/
def has_non_basic_identifier_chars (field_name : Str) : Bool :=
  field_name.any fun c =>
    !c.isAlphanum && c != '_' && c != '-' && c != Char.ofNat 0xFFFD

/-- Rust `char::escape_default` for one character: the named escapes, then
printable ASCII unchanged, then a lowercase hexadecimal unicode escape. -/
def rustEscapeDefaultChar (c : Char) : Str :=
  if c = Char.ofNat 9 then [Char.ofNat 92, 't']
  else if c = Char.ofNat 13 then [Char.ofNat 92, 'r']
  else if c = Char.ofNat 10 then [Char.ofNat 92, 'n']
  else if c = Char.ofNat 92 then [Char.ofNat 92, Char.ofNat 92]
  else if c = quoteChar then [Char.ofNat 92, quoteChar]
  else if c = Char.ofNat 34 then [Char.ofNat 92, Char.ofNat 34]
  else if 0x20 ≤ c.toNat ∧ c.toNat ≤ 0x7E then [c]
  else [Char.ofNat 92, 'u', Char.ofNat 123] ++ Nat.toDigits 16 c.toNat ++ [Char.ofNat 125]

/-- Embeds `format_field_name` (`error_formatting.rs`). -/
def format_field_name (field_name : Str) : Str :=
  if has_non_basic_identifier_chars field_name then
    [Char.ofNat 34] ++ (field_name.map rustEscapeDefaultChar).flatten ++ [Char.ofNat 34]
  else field_name

/-- Embeds `derive_component_from_consumer_trait` (`error_formatting.rs`). -/
def derive_component_from_consumer_trait (consumer_trait : Str) : Option Str :=
  if ("Can".toList).isPrefixOf consumer_trait then
    some ((consumer_trait.drop 3) ++ ("Component".toList))
  else none

/-- Rust `str::strip_prefix` for a substring pattern. -/
def stripPrefixStr (l pre : Str) : Option Str :=
  if pre.isPrefixOf l then some (l.drop pre.length) else none

/-- Word splitting of the fuzzy name-matching heuristic: split at uppercase
characters and keep the non-empty pieces longer than two characters. -/
def significantWords (s : Str) : List Str :=
  (splitOnPred Char.isUpper s).filter fun w => !w.isEmpty && w.length > 2

/-- Nested word loops of the fuzzy name-matching heuristic: some word of the
first list equals some word of the second up to ASCII case. -/
def wordsShare (aws bws : List Str) : Bool :=
  aws.any fun aw => bws.any fun bw => eqIgnoreAsciiCase aw bw

/-- Second loop of `find_consumer_trait_for_component`
(`error_formatting.rs`): walks the provider relationships whose component
matches, derives the provider trait (a failed derivation aborts the whole
search, mirroring the question-mark operator), and fuzzy-matches recorded
consumer-trait dependencies by shared significant words. -/
def fctfcGo (entry : EntryV2) (component_name : Str) :
    List ProviderRelationship → Option Str
  | [] => none
  | provider_rel :: rest =>
    if strip_module_prefixes provider_rel.component = component_name then
      match derive_provider_trait_name component_name with
      | none => none
      | some provider_trait =>
        let provider_words := significantWords provider_trait
        match entry.consumer_trait_dependencies.findSome? (fun dep =>
            let consumer_words :=
              significantWords ((stripPrefixStr dep.trait_name ("Can".toList)).getD dep.trait_name)
            if wordsShare provider_words consumer_words then some dep.trait_name
            else none) with
        | some t => some t
        | none => fctfcGo entry component_name rest
    else fctfcGo entry component_name rest

/-- Embeds `find_consumer_trait_for_component` (`error_formatting.rs`):
first an exact match on the derived component name of a recorded dependency,
then the fuzzy provider-relationship fallback. -/
def find_consumer_trait_for_component (component_name : Str) (entry : EntryV2) :
    Option Str :=
  match entry.consumer_trait_dependencies.findSome? (fun dep =>
      match dep.component_name with
      | some derived_component =>
        if derived_component = component_name then some dep.trait_name else none
      | none => none) with
  | some t => some t
  | none => fctfcGo entry component_name entry.provider_relationships

/-- Embeds `match_component_to_provider` (`error_formatting.rs`): exact
match on the simplified component name first, then a match through the
derived provider trait name. -/
def match_component_to_provider (component_info : ComponentInfo)
    (provider_relationships : List ProviderRelationship) :
    Option ProviderRelationship :=
  let component_name := strip_module_prefixes component_info.component_type
  match provider_relationships.find?
      (fun rel => strip_module_prefixes rel.component == component_name) with
  | some rel => some rel
  | none =>
    match component_info.provider_trait with
    | some provider_trait =>
      provider_relationships.find? fun rel =>
        match derive_provider_trait_name rel.component with
        | some rel_provider_trait => rel_provider_trait == provider_trait
        | none => false
    | none => none

/-- Embeds `extract_trait_from_note` (`error_formatting.rs`). -/
def extract_trait_from_note (note : Str) : Option Str := do
  let start ← strFind note ("to implement `".toList)
  let after_start := note.drop (start + 14)
  let e ← strFind after_start ("`".toList)
  let cleaned := strip_module_prefixes (after_start.take e)
  if ("IsProviderFor<".toList).isPrefixOf cleaned then
    let inner_start ← strFind cleaned ("<".toList)
    let after_bracket := cleaned.drop (inner_start + 1)
    let comma_pos ← strFind after_bracket (",".toList)
    some (trimStr (after_bracket.take comma_pos))
  else
    some cleaned

/-- Embeds `extract_getter_trait_from_note` (`error_formatting.rs`). -/
def extract_getter_trait_from_note (note : Str) : Option Str := do
  let trait_name ← extract_trait_from_note note
  if ("Has".toList).isPrefixOf trait_name then some trait_name else none

/-- Embeds `extract_context_from_notes` (`error_formatting.rs`). -/
def extract_context_from_notes (notes : List Str) : Option Str :=
  notes.findSome? fun note => do
    let start ← strFind note ("for `".toList)
    let after_start := note.drop (start + 5)
    let e ← strFind after_start ("` to".toList)
    some (strip_module_prefixes (after_start.take e))

/-- Embeds `extract_nested_consumer_traits` (`error_formatting.rs`). -/
def extract_nested_consumer_traits (notes : List Str) : List NestedConsumerTrait :=
  notes.filterMap fun note => do
    let for_pos ← strFind note ("required for `".toList)
    let after_for := for_pos + 14
    let context_end ← strFind (note.drop after_for) ("`".toList)
    let context_type := (note.drop after_for).take context_end
    let implement_pos ← strFind (note.drop (after_for + context_end)) ("to implement `".toList)
    let trait_start := after_for + context_end + implement_pos + 14
    let trait_end ← strFind (note.drop trait_start) ("`".toList)
    let cleaned_trait := strip_module_prefixes ((note.drop trait_start).take trait_end)
    if ("Can".toList).isPrefixOf cleaned_trait
        ∧ ¬ strContains cleaned_trait ("CanUseComponent".toList)
        ∧ ¬ ("IsProviderFor".toList).isPrefixOf cleaned_trait then
      some ⟨cleaned_trait, strip_module_prefixes context_type⟩
    else none

/-- Embeds `extract_unsatisfied_provider_from_message`
(`error_formatting.rs`).  The context slice of the source runs from just
after the first `<` to the first `>` of the trait-and-context part; when
that `>` precedes the `<` the source faults on a reversed slice, modelled
here by the saturating empty slice. -/
def extract_unsatisfied_provider_from_message (message : Str) :
    Option UnsatisfiedProvider := do
  let bound_start ← strFind message ("the trait bound `".toList)
  let after_bound := message.drop (bound_start + 17)
  let bound_end ← strFind after_bound ("` is not satisfied".toList)
  let bound_str := after_bound.take bound_end
  let colon_pos ← strFind bound_str (": ".toList)
  let provider_type := trimStr (bound_str.take colon_pos)
  let trait_and_context := trimStr (bound_str.drop (colon_pos + 2))
  let open_bracket ← strFind trait_and_context ("<".toList)
  let trait_name := trimStr (trait_and_context.take open_bracket)
  let close_bracket ← strFind trait_and_context (">".toList)
  let context_type :=
    trimStr ((trait_and_context.drop (open_bracket + 1)).take (close_bracket - (open_bracket + 1)))
  some ⟨strip_module_prefixes provider_type, strip_module_prefixes trait_name,
    strip_module_prefixes context_type⟩

/-- Embeds `detect_inner_providers` (`error_formatting.rs`): provider types
appearing as a type parameter of another provider, first occurrences kept in
scan order. -/
def detect_inner_providers (relationships : List ProviderRelationship) : List Str :=
  relationships.foldl (fun inner_providers rel =>
    relationships.foldl (fun acc other =>
      if rel.provider_type ≠ other.provider_type
          ∧ RootCause.is_contained_type_parameter rel.provider_type other.provider_type
          ∧ ¬ acc.contains rel.provider_type then
        acc ++ [rel.provider_type]
      else acc) inner_providers) []

end ErrorFormatting

namespace ErrorFormatting

open CgpPatterns

/-- Embeds `find_top_level_comma` (`error_formatting.rs`), defined there
identically to `find_comma_at_depth` of `cgp_patterns.rs`. -/
def find_top_level_comma (start_pos : Nat) (text : Str) : Option Nat :=
  (findCommaGo (text.drop start_pos) 0).map (· + start_pos)

/-- Embeds `find_matching_bracket` (`error_formatting.rs`): the position
just after the closing bracket that balances the already-open one. -/
def find_matching_bracket (start_pos : Nat) (text : Str) : Option Nat :=
  (findClose (text.drop start_pos) 1).map (fun i => start_pos + i + 1)

/-- Embeds `replace_is_provider_for` (`error_formatting.rs`). -/
def replace_is_provider_for (message : Str) : Str :=
  if !strContains message ("IsProviderFor".toList) then message
  else
    match strFind message ("IsProviderFor<".toList) with
    | some start =>
      let after_start := start + 14
      match find_top_level_comma after_start message with
      | some comma_pos =>
        let component_name := trimStr ((message.drop after_start).take (comma_pos - after_start))
        let provider_trait_name :=
          (derive_provider_trait_name component_name).getD
            (("the provider trait for `".toList) ++ component_name ++ ("`".toList))
        let end_pos := (find_matching_bracket after_start message).getD message.length
        let before := message.take start
        let after := message.drop end_pos
        let replacement := ("the provider trait `".toList) ++ provider_trait_name ++ ("`".toList)
        if ("`".toList).isSuffixOf before ∧ ("`".toList).isPrefixOf after then
          before.dropLast ++ replacement ++ after.drop 1
        else
          before ++ replacement ++ after
      | none => message
    | none => message

/-- Embeds `replace_can_use_component` (`error_formatting.rs`).  The source
slices the component name up to the position after the closing bracket, so
the name keeps that bracket, and the after-part starts one further character
along; when the pattern reaches the end of the message the source faults on
an out-of-range slice, modelled here by the saturating drop. -/
def replace_can_use_component (message : Str) : Str :=
  if !strContains message ("CanUseComponent".toList) then message
  else
    match strFind message ("CanUseComponent<".toList) with
    | some start =>
      let after_start := start + 16
      let end_pos := (find_matching_bracket after_start message).getD message.length
      let component_name := trimStr ((message.drop after_start).take (end_pos - after_start))
      let replacement := ("use component `".toList) ++ component_name ++ ("`".toList)
      let before := message.take start
      let after := message.drop (end_pos + 1)
      if ("`".toList).isSuffixOf before ∧ ("`".toList).isPrefixOf after then
        before.dropLast ++ replacement ++ after.drop 1
      else
        before ++ replacement ++ after
    | none => message

/-- Embeds `format_delegation_note` (`error_formatting.rs`). -/
def format_delegation_note (note : Str) : Str :=
  let result := strip_module_prefixes note
  let result := replace_is_provider_for result
  let result := replace_can_use_component result
  if result.length > 150 then
    match strFind result (", ...>".toList) with
    | some ellipsis_pos => (result.take ellipsis_pos) ++ ("...".toList)
    | none => result
  else result

/-- Loop of `build_getter_nodes` (`error_formatting.rs`): one getter node
per delegation note naming a getter trait; the field requirement child is
attached to the first getter node only (the source guards the attachment
with the emptiness of the accumulated list). -/
def buildGetterNodesGo (entry : EntryV2) (context_type : Str) :
    List Str → Bool → List DependencyNode
  | [], _ => []
  | note :: rest, first =>
    match extract_getter_trait_from_note note with
    | some getter_trait =>
      let children :=
        if first then
          match entry.field_info with
          | some field_info =>
            [DependencyNode.mk
              (("field `".toList) ++ format_field_name field_info.field_name
                ++ ("` on `".toList) ++ field_info.target_type ++ ("`".toList))
              none (some false) false []]
          | none => []
        else []
      DependencyNode.mk
          (("`".toList) ++ getter_trait ++ ("` for `".toList) ++ context_type ++ ("`".toList))
          (some ("getter trait".toList)) none false children
        :: buildGetterNodesGo entry context_type rest false
    | none => buildGetterNodesGo entry context_type rest first

/-- Embeds `build_getter_nodes` (`error_formatting.rs`). -/
def build_getter_nodes (entry : EntryV2) (context_type : Str) : List DependencyNode :=
  buildGetterNodesGo entry context_type entry.delegation_notes true

/-- Embeds `build_nested_consumer_provider_nodes` (`error_formatting.rs`):
a nested consumer trait already rendered at the root level becomes a
childless reference leaf; otherwise a shared component gets its full
provider subtree and a non-shared one gets the unsatisfied provider node
from the main message, when extractable. -/
def build_nested_consumer_provider_nodes (entry : EntryV2)
    (nested_consumer : NestedConsumerTrait) (_parent_context_type : Str)
    (rendered_consumer_traits : List Str) : List DependencyNode :=
  let is_reference :=
    rendered_consumer_traits.any fun rendered => rendered == nested_consumer.trait_name
  let matching_component := entry.component_infos.find? fun comp =>
    match comp.provider_trait with
    | some provider_trait =>
      match stripPrefixStr nested_consumer.trait_name ("Can".toList) with
      | some action_part =>
        wordsShare (significantWords action_part) (significantWords provider_trait)
      | none => false
    | none => false
  let is_shared_component := matching_component.isSome
  let consumer_desc :=
    ("`".toList) ++ nested_consumer.trait_name ++ ("` for `".toList)
      ++ nested_consumer.context_type ++ ("`".toList)
  if is_reference then
    [DependencyNode.mk consumer_desc (some ("consumer trait".toList)) none true []]
  else
    let children :=
      if is_shared_component then
        match matching_component with
        | some component_info =>
          match match_component_to_provider component_info entry.provider_relationships with
          | some provider_rel =>
            match component_info.provider_trait with
            | some provider_trait =>
              let provider_desc :=
                ("`".toList) ++ provider_trait ++ ("<".toList)
                  ++ nested_consumer.context_type ++ (">` for provider `".toList)
                  ++ provider_rel.provider_type ++ ("`".toList)
              [DependencyNode.mk (strip_module_prefixes provider_desc)
                (some ("provider trait".toList)) none false
                (build_getter_nodes entry nested_consumer.context_type)]
            | none => []
          | none => []
        | none => []
      else
        match extract_unsatisfied_provider_from_message entry.message with
        | some unsatisfied =>
          let provider_desc :=
            ("`".toList) ++ unsatisfied.trait_name ++ ("<".toList)
              ++ unsatisfied.context_type ++ (">` for provider `".toList)
              ++ unsatisfied.provider_type ++ ("`".toList)
          [DependencyNode.mk (strip_module_prefixes provider_desc)
            (some ("provider trait".toList)) (some false) false []]
        | none => []
    [DependencyNode.mk consumer_desc (some ("consumer trait".toList)) none false children]

/-- Embeds `build_provider_nodes_for_component` (`error_formatting.rs`). -/
def build_provider_nodes_for_component (entry : EntryV2) (context_type : Str)
    (component_info : Option ComponentInfo)
    (provider_rel : Option ProviderRelationship)
    (rendered_consumer_traits : List Str) (current_consumer_trait : Option Str) :
    List DependencyNode :=
  let all_inner_providers := detect_inner_providers entry.provider_relationships
  let deduped_relationships :=
    RootCause.deduplicate_provider_relationships entry.provider_relationships
  let rel_to_use :=
    match provider_rel with
    | some rel => some rel
    | none => deduped_relationships.head?
  match rel_to_use with
  | none => []
  | some rel =>
    match component_info.bind (fun c => c.provider_trait) with
    | none => []
    | some provider_trait =>
      let is_higher_order := all_inner_providers.any fun inner =>
        RootCause.is_contained_type_parameter inner rel.provider_type
      let description :=
        ("`".toList) ++ provider_trait ++ ("<".toList) ++ context_type
          ++ (">` for provider `".toList) ++ rel.provider_type ++ ("`".toList)
      let all_nested_consumers :=
        (extract_nested_consumer_traits entry.delegation_notes).filter fun nested =>
          match current_consumer_trait with
          | some current_trait => nested.trait_name ≠ current_trait
          | none => true
      let has_nested_consumer_deps := !all_nested_consumers.isEmpty
      let getter_children :=
        if !has_nested_consumer_deps then build_getter_nodes entry context_type else []
      let nested_children :=
        (all_nested_consumers.map fun nested_consumer =>
          build_nested_consumer_provider_nodes entry nested_consumer context_type
            rendered_consumer_traits).flatten
      let inner_children :=
        if is_higher_order then
          match all_inner_providers.head? with
          | some inner_provider =>
            let inner_desc :=
              ("`".toList) ++ provider_trait ++ ("<".toList) ++ context_type
                ++ (">` for inner provider `".toList) ++ inner_provider ++ ("`".toList)
            [DependencyNode.mk (strip_module_prefixes inner_desc)
              (some ("provider trait".toList)) (some true) false []]
          | none => []
        else []
      [DependencyNode.mk (strip_module_prefixes description)
        (some ("provider trait".toList)) none false
        (getter_children ++ nested_children ++ inner_children)]

/-- Component loop of `build_dependency_tree` (`error_formatting.rs`): one
consumer node per component, threading the accumulated list of already
rendered root-level consumer trait names, which grows only by the
consumer-trait names found for the root components. -/
def bdtGo (entry : EntryV2) (context_type : Str) :
    List ComponentInfo → List Str → List DependencyNode
  | [], _ => []
  | component_info :: rest, rendered_consumer_traits =>
    let component_name := strip_module_prefixes component_info.component_type
    let found := find_consumer_trait_for_component component_name entry
    let consumer_desc :=
      match found with
      | some trait_name =>
        ("`".toList) ++ trait_name ++ ("` for `".toList) ++ context_type ++ ("`".toList)
      | none =>
        ("consumer trait of `".toList) ++ component_name ++ ("` for `".toList)
          ++ context_type ++ ("`".toList)
    let provider_nodes :=
      match match_component_to_provider component_info entry.provider_relationships with
      | some provider_rel =>
        build_provider_nodes_for_component entry context_type (some component_info)
          (some provider_rel) rendered_consumer_traits found
      | none =>
        build_provider_nodes_for_component entry context_type (some component_info)
          none rendered_consumer_traits found
    let rendered2 :=
      match found with
      | some trait_name => rendered_consumer_traits ++ [trait_name]
      | none => rendered_consumer_traits
    DependencyNode.mk consumer_desc (some ("consumer trait".toList)) none false provider_nodes
      :: bdtGo entry context_type rest rendered2

/-- Embeds `build_dependency_tree` (`error_formatting.rs`). -/
def build_dependency_tree (entry : EntryV2) : Option DependencyNode := do
  let check_trait ← entry.check_trait
  let context_type ←
    match entry.field_info.map (fun f => f.target_type) with
    | some t => some t
    | none => extract_context_from_notes entry.delegation_notes
  let root_children := bdtGo entry context_type entry.component_infos []
  let extra_children :=
    if entry.component_infos.isEmpty ∧ entry.provider_relationships ≠ [] then
      build_provider_nodes_for_component entry context_type none none [] none
    else []
  some (DependencyNode.mk
    (("`".toList) ++ check_trait ++ ("` for `".toList) ++ context_type ++ ("`".toList))
    (some ("check trait".toList)) none false (root_children ++ extra_children))

/-- Renders a dependency tree (`render_dependency_tree` of
`error_formatting.rs`), structurally on a depth fuel.  Trees produced by
`build_dependency_tree` are at most seven levels deep (check, consumer,
provider, nested consumer, nested provider, getter, field), so the fixed
fuel of sixteen used below never runs out on them. -/
def renderTreeFuel : Nat → DependencyNode → Str → Bool → Bool → List Str
  | 0, _, _, _, _ => []
  | fuel + 1, node, prfx, is_last, is_root =>
    let trait_annot :=
      match node.trait_type with
      | some trait_type => (" (".toList) ++ trait_type ++ (")".toList)
      | none => []
    let line :=
      if is_root then node.description ++ trait_annot
      else
        let branch := if is_last then "└─".toList else "├─".toList
        let sat :=
          match node.is_satisfied with
          | some true => " ✓".toList
          | some false => " ✗".toList
          | none => []
        let refm := if node.is_reference then " (*)".toList else []
        prfx ++ branch ++ (" ".toList) ++ node.description ++ trait_annot ++ sat ++ refm
    if node.is_reference then [line]
    else
      let child_prefix :=
        if is_root then prfx
        else if is_last then prfx ++ ("   ".toList)
        else prfx ++ ("│  ".toList)
      line :: (node.children.enum.map fun p =>
        renderTreeFuel fuel p.2 child_prefix (p.1 == node.children.length - 1) false).flatten

/-- Embeds `render_dependency_tree` (`error_formatting.rs`). -/
def render_dependency_tree (node : DependencyNode) (prfx : Str)
    (is_last is_root : Bool) : List Str :=
  renderTreeFuel 16 node prfx is_last is_root

/-- Embeds `format_delegation_chain_legacy` (`error_formatting.rs`). -/
def format_delegation_chain_legacy (entry : EntryV2) : List Str :=
  let all_inner_providers := detect_inner_providers entry.provider_relationships
  let deduped_relationships :=
    RootCause.deduplicate_provider_relationships entry.provider_relationships
  let kept_provider_types := deduped_relationships.map fun r => r.provider_type
  let deduped_notes := RootCause.deduplicate_delegation_notes entry.delegation_notes
  let head_hint :=
    if !all_inner_providers.isEmpty ∧ entry.field_info.isSome then
      let outer_providers := deduped_relationships.filter fun r =>
        !(all_inner_providers.any fun inner => inner == r.provider_type)
      if !outer_providers.isEmpty ∧ !all_inner_providers.isEmpty then
        [("→ The error in `".toList)
          ++ (outer_providers.headD ⟨[], [], []⟩).provider_type
          ++ ("` is caused by the inner provider `".toList)
          ++ all_inner_providers.headD [] ++ ("`".toList)]
      else []
    else []
  head_hint ++ deduped_notes.filterMap fun note =>
    let should_keep :=
      match extract_provider_relationship note with
      | some provider_info =>
        kept_provider_types.isEmpty
          || kept_provider_types.contains provider_info.provider_type
      | none => true
    if should_keep then some (("→ ".toList) ++ format_delegation_note note) else none

/-- Embeds `format_delegation_chain` (`error_formatting.rs`): the rendered
dependency tree when one can be built, else the legacy arrow list. -/
def format_delegation_chain (entry : EntryV2) : List Str :=
  match build_dependency_tree entry with
  | some tree => render_dependency_tree tree [] true true
  | none => format_delegation_chain_legacy entry

/-- Decimal rendering of a number, as the Rust display formatting of
`usize`. -/
def natStr (n : Nat) : Str :=
  (toString n).toList

/-- The transformed diagnostic produced by the formatter
(`cgp_diagnostic.rs`, struct `CgpDiagnostic`), with the help text kept as
its list of sections (the source joins them with newlines) and without the
source-snippet and label fields, which `build_source_and_labels` fills by
reading files from disk, outside the embedded core. -/
structure CgpDiagnosticModel where
  message : Str
  code : Option Str
  help : Option (List Str)
deriving DecidableEq, Repr

/-- The redaction warning line pushed by `format_missing_field_error` when
the field name had compiler-hidden characters. -/
def unknownCharsWarning : Str :=
  ("note: some characters in the field name are hidden by the compiler and shown as ".toList)
    ++ [quoteChar, Char.ofNat 0xFFFD, quoteChar]

/-- Help sections of `format_missing_field_error` (`error_formatting.rs`),
in push order: context statement, missing-field note, redaction warning,
struct location, dependency chain, higher-order provider hint, and fix
suggestions. -/
def formatMissingFieldSections (entry : EntryV2) (field_info : FieldInfoV2) :
    List Str :=
  let formatted_field_name := format_field_name field_info.field_name
  let component_names :=
    (entry.component_infos.map fun c => strip_module_prefixes c.component_type).filter
      fun name =>
        !strContains name ("IsProviderFor<".toList)
          && !strContains name ("CanUseComponent<".toList)
  let context_single :=
    ("Context `".toList) ++ field_info.target_type
      ++ ("` is missing a required field to use `".toList)
      ++ component_names.headD [] ++ ("`.".toList)
  let context_multi :=
    ("Context `".toList) ++ field_info.target_type
      ++ ("` is missing a required field to use multiple components: `".toList)
      ++ List.intercalate ("`, `".toList) component_names ++ ("`.".toList)
  let s1 :=
    if entry.field_info.isSome then
      if !component_names.isEmpty then
        if component_names.length = 1 then [context_single] else [context_multi]
      else
        [("Context `".toList) ++ field_info.target_type
          ++ ("` is missing a required field.".toList)]
    else if !component_names.isEmpty then
      if component_names.length = 1 then [context_single] else [context_multi]
    else []
  let missing_note :=
    if entry.has_other_hasfield_impls then
      ("    note: Missing field: `".toList) ++ formatted_field_name ++ ("`".toList)
    else
      ("    note: Missing field: `".toList) ++ formatted_field_name
        ++ ("` or struct needs `#[derive(HasField)]`".toList)
  let s2 :=
    if field_info.has_unknown_chars then [unknownCharsWarning, []] else []
  let s3 :=
    match entry.primary_spans.head? with
    | some span =>
      [("The struct `".toList) ++ field_info.target_type
        ++ ("` is defined at `".toList) ++ span.file_name ++ (":".toList)
        ++ natStr span.line_start
        ++ ("` but does not have the required field `".toList)
        ++ formatted_field_name ++ ("`.".toList), []]
    | none => []
  let s4 :=
    if !entry.delegation_notes.isEmpty then
      ("Dependency chain:".toList)
        :: (format_delegation_chain entry).map (fun line => ("    ".toList) ++ line)
        ++ [[]]
    else []
  let all_inner_providers := detect_inner_providers entry.provider_relationships
  let deduped_relationships :=
    RootCause.deduplicate_provider_relationships entry.provider_relationships
  let s5 :=
    if !all_inner_providers.isEmpty then
      let outer_providers := deduped_relationships.filter fun r =>
        !(all_inner_providers.any fun inner => inner == r.provider_type)
      if !outer_providers.isEmpty then
        [("The error in the higher-order provider `".toList)
          ++ (outer_providers.headD ⟨[], [], []⟩).provider_type
          ++ ("` might be caused by its inner provider `".toList)
          ++ all_inner_providers.headD [] ++ ("`.".toList), []]
      else []
    else []
  let fixes :=
    if entry.has_other_hasfield_impls then
      match entry.primary_spans.head? with
      | some span =>
        [("    • Add a field `".toList) ++ field_info.field_name
          ++ ("` to the `".toList) ++ field_info.target_type
          ++ ("` struct at ".toList) ++ span.file_name ++ (":".toList)
          ++ natStr span.line_start]
      | none =>
        [("    • Add a field `".toList) ++ field_info.field_name
          ++ ("` to the `".toList) ++ field_info.target_type ++ ("` struct".toList)]
    else
      (match entry.primary_spans.head? with
        | some span =>
          [("    • If the struct has the field `".toList) ++ field_info.field_name
            ++ ("`, add `#[derive(HasField)]` to the struct definition at `".toList)
            ++ span.file_name ++ (":".toList) ++ natStr span.line_start ++ ("`".toList)]
        | none =>
          [("    • If the struct has the field `".toList) ++ field_info.field_name
            ++ ("`, add `#[derive(HasField)]` to the struct definition".toList)])
        ++ [("    • If the field is missing, add a `".toList) ++ field_info.field_name
          ++ ("` field to the struct".toList)]
  s1 ++ [missing_note, []] ++ s2 ++ s3 ++ s4 ++ s5
    ++ (("To fix this error:".toList) :: fixes)

/-- Embeds `format_missing_field_error` (`error_formatting.rs`), without the
file-reading snippet and label construction. -/
def format_missing_field_error (entry : EntryV2) (field_info : FieldInfoV2) :
    CgpDiagnosticModel :=
  let formatted_field_name := format_field_name field_info.field_name
  let message :=
    if entry.has_other_hasfield_impls then
      ("missing field `".toList) ++ formatted_field_name
        ++ ("` in the context `".toList) ++ field_info.target_type ++ ("`.".toList)
    else
      ("missing field `".toList) ++ formatted_field_name
        ++ ("` or `#[derive(HasField)]` in the context `".toList)
        ++ field_info.target_type ++ ("`.".toList)
  { message := message
    code := entry.error_code
    help := some (formatMissingFieldSections entry field_info) }

/-- Embeds `format_generic_cgp_error` (`error_formatting.rs`), without the
file-reading snippet and label construction. -/
def format_generic_cgp_error (entry : EntryV2) : CgpDiagnosticModel :=
  let chain_sections :=
    if !entry.delegation_notes.isEmpty then
      ("Dependency chain:".toList)
        :: (format_delegation_chain entry).map (fun line => ("  ".toList) ++ line)
        ++ [[]]
    else []
  let nested_consumers := extract_nested_consumer_traits entry.delegation_notes
  let check_sections :=
    if !nested_consumers.isEmpty then
      let first_try : Option Str :=
        (extract_unsatisfied_provider_from_message entry.message).map
          fun u => u.context_type
      let context_type :=
        (match first_try with
          | some t => some t
          | none => extract_context_from_notes entry.delegation_notes).getD
          ("the context".toList)
      nested_consumers.filterMap fun nested_consumer =>
        (derive_component_from_consumer_trait nested_consumer.trait_name).map
          fun component_name =>
            ("Add a check that `".toList) ++ context_type ++ ("` can use `".toList)
              ++ component_name
              ++ ("` using `check_components!` to get further details on the missing dependencies.".toList)
    else []
  let help_sections := chain_sections ++ check_sections
  { message := entry.message
    code := entry.error_code
    help := if help_sections.isEmpty then none else some help_sections }

/-- Embeds `format_error_message` (`error_formatting.rs`). -/
def format_error_message (entry : EntryV2) : CgpDiagnosticModel :=
  match entry.field_info with
  | some field_info => format_missing_field_error entry field_info
  | none => format_generic_cgp_error entry

/-- All nodes of a tree down to the given depth fuel: the node itself and,
when fuel remains, the subtree nodes of its children. -/
def subtreeNodesFuel : Nat → DependencyNode → List DependencyNode
  | 0, n => [n]
  | fuel + 1, n => n :: (n.children.map (subtreeNodesFuel fuel)).flatten

/-- Reference nodes are childless, at every depth. -/
def RefSafe (t : DependencyNode) : Prop :=
  ∀ fuel : Nat, ∀ n ∈ subtreeNodesFuel fuel t, n.is_reference = true → n.children = []

end ErrorFormatting

namespace CgpPatterns

/-- Modelled from the spec: the character-collection scan of
`extract_chars_from_pattern`, additionally recording whether a placeholder
`_` marker character was skipped.  The flag-carrying version of the
extractor is absent from the `cgp_patterns.rs` snapshot although
`error_formatting.rs` consumes a `has_unknown_chars` field; the collection
logic is that of the source loop, the flag follows the words of the spec. -/
def extractCharsV2Go (text : Str) : Nat → Nat → List Char × Bool → List Char × Bool
  | 0, _, acc => acc
  | fuel + 1, idx, acc =>
    if idx < text.length then
      let acc2 :=
        if charsQuotePat.isPrefixOf (text.drop idx) then
          match (text.drop (idx + 7)).head? with
          | some ch =>
            if ch ≠ quoteChar ∧ ch ≠ '_' ∧ ch.isAlpha then (acc.1 ++ [ch], acc.2)
            else if ch = '_' then (acc.1, true)
            else acc
          | none => acc
        else acc
      extractCharsV2Go text fuel (idx + 1) acc2
    else acc

/-- Modelled from the spec: collected characters together with the
placeholder-skipped flag. -/
def extract_chars_from_pattern_v2 (text : Str) : List Char × Bool :=
  extractCharsV2Go text text.length 0 ([], false)

/-- Modelled from the spec: `extract_field_name_from_symbol` extended with
the `has_unknown_chars` flag of the spec; name and completeness bit are
computed exactly as in the source. -/
def extract_field_name_from_symbol_v2 (message : Str) : Option (Str × Bool × Bool) :=
  let relevant_part := relevantSymbolPart message
  match extract_symbol_length relevant_part with
  | none => none
  | some expected_length =>
    let collected := extract_chars_from_pattern_v2 relevant_part
    if collected.1.isEmpty then none
    else some (collected.1, collected.1.length == expected_length, collected.2)

/-- A placeholder marker occurs in the text: some scan position carries the
`Chars<` apostrophe pattern followed by the `_` placeholder. -/
def placeholderMarkerB (text : Str) : Bool :=
  (List.range text.length).any fun i =>
    charsQuotePat.isPrefixOf (text.drop i) && ((text.drop (i + 7)).head? == some '_')

end CgpPatterns

namespace ByteLevel

/-- UTF-8 encoding of one character, one to four bytes. -/
def utf8EncodeChar (c : Char) : List Nat :=
  let n := c.toNat
  if n < 0x80 then [n]
  else if n < 0x800 then
    [0xC0 ||| (n >>> 6), 0x80 ||| (n &&& 0x3F)]
  else if n < 0x10000 then
    [0xE0 ||| (n >>> 12), 0x80 ||| ((n >>> 6) &&& 0x3F), 0x80 ||| (n &&& 0x3F)]
  else
    [0xF0 ||| (n >>> 18), 0x80 ||| ((n >>> 12) &&& 0x3F), 0x80 ||| ((n >>> 6) &&& 0x3F),
      0x80 ||| (n &&& 0x3F)]

/-- UTF-8 encoding of a string: the byte sequence a Rust `str` holds. -/
def utf8Str (s : Str) : List Nat :=
  (s.map utf8EncodeChar).flatten

/-- Rust `str::is_char_boundary`: start, end, or a byte that is not a
continuation byte. -/
def isCharBoundary (bs : List Nat) (i : Nat) : Bool :=
  if i = 0 then true
  else if i = bs.length then true
  else
    match bs.get? i with
    | some b => decide (b < 0x80) || decide (0xC0 ≤ b)
    | none => false

/-- First character of a UTF-8 byte sequence, as Rust `chars().next()` on a
valid slice; `none` on an empty or ill-formed sequence. -/
def utf8DecodeFirst (bs : List Nat) : Option Char :=
  match bs with
  | [] => none
  | b0 :: rest =>
    if b0 < 0x80 then some (Char.ofNat b0)
    else if b0 < 0xC0 then none
    else if b0 < 0xE0 then
      match rest with
      | b1 :: _ => some (Char.ofNat (((b0 - 0xC0) <<< 6) + (b1 - 0x80)))
      | [] => none
    else if b0 < 0xF0 then
      match rest with
      | b1 :: b2 :: _ =>
        some (Char.ofNat (((b0 - 0xE0) <<< 12) + ((b1 - 0x80) <<< 6) + (b2 - 0x80)))
      | _ => none
    else
      match rest with
      | b1 :: b2 :: b3 :: _ =>
        some (Char.ofNat (((b0 - 0xF0) <<< 18) + ((b1 - 0x80) <<< 12)
          + ((b2 - 0x80) <<< 6) + (b3 - 0x80)))
      | _ => none

/-- Outcome of the byte-accurate scan: the collected characters, or the
slice fault Rust raises when a slice starts inside a multi-byte
character. -/
inductive ByteScanResult where
  | ok (chars : List Char)
  | boundaryFault
deriving DecidableEq, Repr

/-- Byte-accurate loop of `extract_chars_from_pattern` (`cgp_patterns.rs`):
the index advances one BYTE at a time over the whole byte length, and every
iteration first takes the slice starting at the index, which faults when the
index is not a character boundary.  Fuel equals the byte length. -/
def extractCharsBytesGo (bs : List Nat) : Nat → Nat → List Char → ByteScanResult
  | 0, _, acc => ByteScanResult.ok acc
  | fuel + 1, idx, acc =>
    if idx < bs.length then
      if isCharBoundary bs idx then
        if (utf8Str CgpPatterns.charsQuotePat).isPrefixOf (bs.drop idx) then
          let char_start := idx + 7
          if isCharBoundary bs char_start then
            match utf8DecodeFirst (bs.drop char_start) with
            | some ch =>
              if ch ≠ quoteChar ∧ ch ≠ '_' ∧ ch.isAlpha then
                extractCharsBytesGo bs fuel (idx + 1) (acc ++ [ch])
              else extractCharsBytesGo bs fuel (idx + 1) acc
            | none => extractCharsBytesGo bs fuel (idx + 1) acc
          else ByteScanResult.boundaryFault
        else extractCharsBytesGo bs fuel (idx + 1) acc
      else ByteScanResult.boundaryFault
    else ByteScanResult.ok acc

/-- Byte-accurate model of `extract_chars_from_pattern`
(`cgp_patterns.rs`). -/
def extract_chars_from_pattern_bytes (bs : List Nat) : ByteScanResult :=
  extractCharsBytesGo bs bs.length 0 []

end ByteLevel

/-- Spec-side containment predicate for the relationship deduplication,
following the words of the spec: the outer provider type contains the inner
one under one of the patterns of the form opening bracket or comma, optional
spaces, the inner type, optional spaces, closing bracket or comma. -/
def specContainedB (inner outer : Str) : Bool :=
  let bound := outer.length + 1
  (List.range bound).any fun m =>
    (List.range bound).any fun n =>
      ([("<".toList), (",".toList)] : List Str).any fun lead =>
        ([(">".toList), (",".toList)] : List Str).any fun trail =>
          strContains outer
            (lead ++ List.replicate m ' ' ++ inner ++ List.replicate n ' ' ++ trail)

/-- Balance of angle brackets: every prefix has at least as many opening as
closing brackets, and the totals agree. -/
def balancedAnglesB (l : Str) : Bool :=
  (l.inits.all fun p => decide (p.count '>' ≤ p.count '<')) && (l.count '<' == l.count '>')

namespace DiagnosticDb

/-- Frame relation of `deduplicate`: the key and every entry field except
the suppressed flag are unchanged, and a set suppressed flag is never
cleared. -/
def FramePreserved (p q : DiagnosticKey × DiagnosticEntry) : Prop :=
  q.1 = p.1
    ∧ q.2.original = p.2.original
    ∧ q.2.field_info = p.2.field_info
    ∧ q.2.component_info = p.2.component_info
    ∧ q.2.consumer_trait = p.2.consumer_trait
    ∧ q.2.provider_relationships = p.2.provider_relationships
    ∧ q.2.delegation_notes = p.2.delegation_notes
    ∧ q.2.has_other_hasfield_impls = p.2.has_other_hasfield_impls
    ∧ q.2.primary_span = p.2.primary_span
    ∧ q.2.error_code = p.2.error_code
    ∧ q.2.message = p.2.message
    ∧ q.2.is_root_cause = p.2.is_root_cause
    ∧ (p.2.suppressed = true → q.2.suppressed = true)

end DiagnosticDb

/-- A diagnostic with no content, for building sample entries. -/
def emptyDiagnostic : Diagnostic := ⟨[], none, [], []⟩

/-- A sample entry with every optional field absent, built exactly as
`create_entry` builds one from the empty diagnostic. -/
def baseEntry : DiagnosticDb.DiagnosticEntry :=
  { original := emptyDiagnostic
    field_info := none
    component_info := none
    consumer_trait := none
    provider_relationships := []
    delegation_notes := []
    has_other_hasfield_impls := false
    primary_span := none
    error_code := none
    message := []
    is_root_cause := false
    suppressed := false }

/-- Sample field info for the merge and suppression examples. -/
def fiSample : CgpPatterns.FieldInfo := ⟨"area".toList, true, "Rect".toList⟩

/-- Sample entry carrying field info, a consumer trait and an error code. -/
def entryC1 : DiagnosticDb.DiagnosticEntry :=
  { baseEntry with
    field_info := some fiSample
    consumer_trait := some ("CanCalcArea".toList)
    error_code := some ("E0277".toList)
    is_root_cause := true }

/-- Shared location of the suppression example. -/
def locC2 : DiagnosticDb.SourceLocation := ⟨"src/lib.rs".toList, 10, 5⟩

/-- Shared provider relationship of the suppression example. -/
def relC2 : CgpPatterns.ProviderRelationship :=
  ⟨"RectangleArea".toList, "AreaCalculatorComponent".toList, "Rectangle".toList⟩

/-- Key of the generic, field-lacking entry of the suppression example. -/
def keyGenericC2 : DiagnosticDb.DiagnosticKey :=
  ⟨locC2, some ("AreaCalculatorComponent".toList)⟩

/-- Key of the field-carrying entry of the suppression example. -/
def keyFieldC2 : DiagnosticDb.DiagnosticKey := ⟨locC2, none⟩

/-- The generic entry: no field info, but one provider relationship that the
field-carrying entry at the same location also holds. -/
def entryGenericC2 : DiagnosticDb.DiagnosticEntry :=
  { baseEntry with provider_relationships := [relC2] }

/-- The field-carrying entry at the same location, holding the same provider
relationship. -/
def entryFieldC2 : DiagnosticDb.DiagnosticEntry :=
  { baseEntry with
    field_info := some fiSample
    provider_relationships := [relC2]
    is_root_cause := true }

/-- Database of the suppression example. -/
def dbC2 : DiagnosticDb.Database :=
  [(keyGenericC2, entryGenericC2), (keyFieldC2, entryFieldC2)]

/-- First entry of the enumeration-order example. -/
def entryA9 : DiagnosticDb.DiagnosticEntry := { baseEntry with message := "first".toList }

/-- Second entry of the enumeration-order example. -/
def entryB9 : DiagnosticDb.DiagnosticEntry := { baseEntry with message := "second".toList }

/-- An iteration order of the enumeration-order example database. -/
def db9a : DiagnosticDb.Database :=
  [(⟨⟨"a.rs".toList, 1, 1⟩, none⟩, entryA9), (⟨⟨"b.rs".toList, 2, 2⟩, none⟩, entryB9)]

/-- The other iteration order of the same key-to-entry content. -/
def db9b : DiagnosticDb.Database :=
  [(⟨⟨"b.rs".toList, 2, 2⟩, none⟩, entryB9), (⟨⟨"a.rs".toList, 1, 1⟩, none⟩, entryA9)]

/-- Inner relationship of the containment-deduplication instance. -/
def relInner6 : CgpPatterns.ProviderRelationship :=
  ⟨"A".toList, "Cap".toList, "Ctx".toList⟩

/-- Outer relationship of the containment-deduplication instance. -/
def relOuter6 : CgpPatterns.ProviderRelationship :=
  ⟨"Outer<A>".toList, "Cap".toList, "Ctx".toList⟩

/-- A relationship whose provider type matches the one-sided `< X` pattern
of the source without containing `A` as a complete type parameter. -/
def relM6 : CgpPatterns.ProviderRelationship :=
  ⟨"M< Ax>".toList, "Cap".toList, "Ctx".toList⟩

/-- Entry of the tree-reference example: one root component whose provider
carries two delegation notes naming the same nested consumer trait at two
context types. -/
def entryC3 : ErrorFormatting.EntryV2 :=
  { check_trait := some ("CanUseFoo".toList)
    field_info := none
    component_infos := [⟨"FooComponent".toList, some ("Foo".toList)⟩]
    consumer_trait_dependencies := []
    provider_relationships := [⟨"P".toList, "FooComponent".toList, "Ctx".toList⟩]
    delegation_notes := ["required for `A` to implement `CanDoXyz`".toList,
      "required for `B` to implement `CanDoXyz`".toList]
    message := []
    primary_spans := []
    error_code := none
    has_other_hasfield_impls := false }

/-- The dependency tree built for the tree-reference example. -/
def treeC3 : ErrorFormatting.DependencyNode :=
  (ErrorFormatting.build_dependency_tree entryC3).getD
    (ErrorFormatting.DependencyNode.mk [] none none false [])

/-- Field info of the redaction-warning example: an incomplete field name
with compiler-hidden characters. -/
def fiC5 : ErrorFormatting.FieldInfoV2 := ⟨"a".toList, false, true, "Ctx".toList⟩

/-- Entry of the redaction-warning example. -/
def entryC5 : ErrorFormatting.EntryV2 :=
  { check_trait := none
    field_info := some fiC5
    component_infos := []
    consumer_trait_dependencies := []
    provider_relationships := []
    delegation_notes := []
    message := []
    primary_spans := []
    error_code := none
    has_other_hasfield_impls := false }

/-- A diagnostic text declaring a field name of length two, with one visible
character and one placeholder marker. -/
def msgC5 : Str :=
  ("Symbol<2, Chars<".toList) ++ [quoteChar] ++ ("a".toList) ++ [quoteChar]
    ++ (", Chars<".toList) ++ [quoteChar] ++ ("_".toList) ++ [quoteChar]
    ++ (", Nil>>".toList)

/-- UTF-8 bytes of a diagnostic text holding a two-byte character, on which
the byte-indexed character scan of the source faults. -/
def bytesC8 : List Nat := ByteLevel.utf8Str ("Symbol<2, é".toList)

/-- A failed replacement scan leaves the string unchanged: when the pattern
occurs nowhere in the list, the worker is the identity. -/
theorem replaceAllFuel_of_not_infix (pat rep : Str) :
    ∀ (fuel : Nat) (l : Str), l.length ≤ fuel → ¬ pat <:+: l →
      replaceAllFuel pat rep fuel l = l := by
  intro fuel
  induction fuel with
  | zero =>
    intro l hl _
    cases l with
    | nil => rfl
    | cons c rest => simp at hl
  | succ fuel ih =>
    intro l hl hinf
    cases l with
    | nil => rfl
    | cons c rest =>
      have hnp : ¬ (pat ≠ [] ∧ pat.isPrefixOf (c :: rest) = true) := by
        rintro ⟨hne, hpre⟩
        exact hinf (List.isPrefixOf_iff_prefix.mp hpre).isInfix
      have hrest : ¬ pat <:+: rest := by
        intro h
        exact hinf (h.trans (List.suffix_cons c rest).isInfix)
      simp only [replaceAllFuel, if_neg hnp]
      have := ih rest (by simpa using Nat.le_of_succ_le_succ hl) hrest
      rw [this]

/-- Rust `replace` with a pattern that does not occur is the identity. -/
theorem replaceAll_of_not_infix (pat rep l : Str) (h : ¬ pat <:+: l) :
    replaceAll pat rep l = l :=
  replaceAllFuel_of_not_infix pat rep l.length l (Nat.le_refl _) h

/-- C7, amended.  Namespace-prefix stripping is idempotent on every string
whose stripped form contains no further occurrence of `cgp::`; the two
substring replacements can splice a new `cgp::` occurrence together out of
surrounding text, so the unconditional idempotence of the claim fails (see
the counterexample). -/
theorem c7_strip_idempotence_amended :
    ∀ s : Str, ¬ (("cgp::".toList) <:+: CgpPatterns.strip_module_prefixes s) →
      CgpPatterns.strip_module_prefixes (CgpPatterns.strip_module_prefixes s)
        = CgpPatterns.strip_module_prefixes s := by
  intro s h
  have h2 : ¬ (("cgp::prelude::".toList) <:+: CgpPatterns.strip_module_prefixes s) := by
    intro hinf
    have hpre : ("cgp::".toList) <+: ("cgp::prelude::".toList) := by decide
    exact h (hpre.isInfix.trans hinf)
  have hdef : CgpPatterns.strip_module_prefixes (CgpPatterns.strip_module_prefixes s)
      = replaceAll ("cgp::".toList) []
          (replaceAll ("cgp::prelude::".toList) [] (CgpPatterns.strip_module_prefixes s)) :=
    rfl
  rw [hdef, replaceAll_of_not_infix _ _ _ h2, replaceAll_of_not_infix _ _ _ h]

/-- C7, witness for the amended theorem at a concrete input. -/
theorem c7_strip_idempotence_amended_witness :
    CgpPatterns.strip_module_prefixes
        (CgpPatterns.strip_module_prefixes ("cgp::prelude::Foo".toList))
      = CgpPatterns.strip_module_prefixes ("cgp::prelude::Foo".toList) :=
  c7_strip_idempotence_amended ("cgp::prelude::Foo".toList) (by decide)

/-- C7, counterexample to the claim as stated: stripping `cgcgp::p::` once
yields `cgp::`, whose second stripping yields the empty string, so
stripping twice differs from stripping once. -/
theorem c7_strip_idempotence_counterexample :
    CgpPatterns.strip_module_prefixes
        (CgpPatterns.strip_module_prefixes ("cgcgp::p::".toList))
      ≠ CgpPatterns.strip_module_prefixes ("cgcgp::p::".toList) := by
  decide

/-- C8.  The byte-accurate model of `extract_chars_from_pattern` faults on
the UTF-8 encoding of a text holding a two-byte character: the scan slices
the string at every byte offset, and offset eleven of this input falls
inside the two-byte character, where Rust raises a char-boundary panic
instead of returning normally. -/
theorem c8_extractor_boundary_fault :
    ByteLevel.extract_chars_from_pattern_bytes bytesC8
      = ByteLevel.ByteScanResult.boundaryFault := by
  decide

/-- C9, amended.  The active-entry enumeration returns exactly the entries
whose suppressed flag is false, preserving the iteration order of the map;
no sorting by grouping key takes place, and the order is not a function of
the key-to-entry content (see the counterexample). -/
theorem c9_active_entries_amended :
    ∀ (db : DiagnosticDb.Database) (e : DiagnosticDb.DiagnosticEntry),
      (e ∈ DiagnosticDb.get_active_entries db
        ↔ e ∈ DiagnosticDb.get_all_entries db ∧ e.suppressed = false)
      ∧ (DiagnosticDb.get_active_entries db).Sublist (DiagnosticDb.get_all_entries db) := by
  intro db e
  refine ⟨?_, List.filter_sublist _⟩
  simp [DiagnosticDb.get_active_entries, DiagnosticDb.get_all_entries, List.mem_filter]

/-- C9, witness for the amended theorem at a concrete input. -/
theorem c9_active_entries_amended_witness :
    entryA9 ∈ DiagnosticDb.get_active_entries db9a :=
  (c9_active_entries_amended db9a entryA9).1.mpr ⟨by decide, rfl⟩

/-- C9, counterexample to the claim as stated: two databases with the same
key-to-entry content (a permutation) but different iteration orders give
different active-entry sequences, so the order is neither stable across
equal database states nor sorted by grouping key. -/
theorem c9_active_entries_counterexample :
    db9a.Perm db9b
      ∧ DiagnosticDb.get_active_entries db9a ≠ DiagnosticDb.get_active_entries db9b := by
  constructor
  · decide
  · decide

/-- The keep-or-drop loop of the relationship deduplication equals a filter
by non-redundancy against the full input list. -/
theorem dedupRelsGo_eq_filter (rels : List CgpPatterns.ProviderRelationship) :
    ∀ l, RootCause.dedupRelsGo rels l
      = l.filter fun r => !RootCause.relRedundant rels r := by
  intro l
  induction l with
  | nil => rfl
  | cons r rest ih =>
    rw [List.filter_cons]
    cases h : RootCause.relRedundant rels r with
    | false => simp only [RootCause.dedupRelsGo, h, ih]; simp
    | true => simp only [RootCause.dedupRelsGo, h, ih]; simp

/-- The redundancy test of the relationship deduplication holds exactly when
another relationship of the list, different as a value, shares component and
context and textually contains the provider type. -/
theorem relRedundant_iff (rels : List CgpPatterns.ProviderRelationship)
    (r : CgpPatterns.ProviderRelationship) :
    RootCause.relRedundant rels r = true
      ↔ ∃ other ∈ rels, other ≠ r
          ∧ other.component = r.component ∧ other.context = r.context
          ∧ RootCause.is_contained_type_parameter r.provider_type other.provider_type
              = true := by
  unfold RootCause.relRedundant
  rw [List.any_eq_true]
  refine exists_congr fun other => and_congr_right fun _ => ?_
  by_cases h1 : other = r
  · simp [h1]
  · by_cases h2 : other.component = r.component ∧ other.context = r.context
    · have hno : ¬(other.component ≠ r.component ∨ other.context ≠ r.context) := by
        push_neg
        exact h2
      simp [if_neg h1, if_neg hno, h1, h2.1, h2.2]
    · have hyes : other.component ≠ r.component ∨ other.context ≠ r.context := by
        by_cases hc : other.component = r.component
        · right
          intro hk
          exact h2 ⟨hc, hk⟩
        · left
          exact hc
      have hrhs : ¬(other ≠ r ∧ other.component = r.component
          ∧ other.context = r.context
          ∧ RootCause.is_contained_type_parameter r.provider_type other.provider_type
              = true) := by
        rintro ⟨_, hc, hk, _⟩
        exact h2 ⟨hc, hk⟩
      simp [if_neg h1, if_pos hyes, hrhs]

/-- C6, amended.  A relationship is dropped by the deduplication exactly
when some other relationship of the list, different as a value, has the same
component and context and its provider-type string contains this provider
type under one of the six textual patterns of the source, which include the
one-sided patterns of an opening bracket plus space before the type and of
the type plus space before a closing bracket; the concrete instance of the
claim holds: of an inner provider and its bracketed wrapper, only the
wrapper survives. -/
theorem c6_containment_dedup_amended :
    (∀ (rels : List CgpPatterns.ProviderRelationship)
        (r : CgpPatterns.ProviderRelationship),
      r ∈ RootCause.deduplicate_provider_relationships rels
        ↔ r ∈ rels
            ∧ ¬ ∃ other ∈ rels, other ≠ r
                ∧ other.component = r.component ∧ other.context = r.context
                ∧ RootCause.is_contained_type_parameter r.provider_type
                    other.provider_type = true)
    ∧ RootCause.deduplicate_provider_relationships [relInner6, relOuter6]
        = [relOuter6] := by
  constructor
  · intro rels r
    unfold RootCause.deduplicate_provider_relationships
    rw [dedupRelsGo_eq_filter, List.mem_filter]
    rw [Bool.not_eq_true', ← Bool.not_eq_true]
    rw [relRedundant_iff]
  · decide

/-- C6, witness for the amended theorem at a concrete input: the wrapper
relationship survives the deduplication of the claim instance. -/
theorem c6_containment_dedup_amended_witness :
    relOuter6 ∈ RootCause.deduplicate_provider_relationships [relInner6, relOuter6] :=
  (c6_containment_dedup_amended.1 [relInner6, relOuter6] relOuter6).mpr
    ⟨by decide, by decide⟩

/-- C6, counterexample to the claim as stated: the provider type `A` is
dropped beside `M< Ax>` through the one-sided `< X` pattern of the source,
although `A` does not occur in `M< Ax>` as a bracketed type parameter under
the patterns of the claim, even allowing arbitrary surrounding spaces. -/
theorem c6_containment_dedup_counterexample :
    RootCause.deduplicate_provider_relationships [relInner6, relM6] = [relM6]
      ∧ specContainedB ("A".toList) ("M< Ax>".toList) = false := by
  constructor
  · decide
  · decide

/-- A related field-carrying entry is found exactly when the database holds
an entry at the same primary location with field info. -/
theorem findRelated_isSome_iff (db : DiagnosticDb.Database)
    (k : DiagnosticDb.DiagnosticKey) :
    (DiagnosticDb.find_related_with_field_info db k).isSome = true
      ↔ ∃ p ∈ db, p.1.location = k.location ∧ p.2.field_info.isSome = true := by
  unfold DiagnosticDb.find_related_with_field_info
  rw [Option.isSome_map']
  rw [List.find?_isSome]
  simp

/-- C2, amended.  An entry is marked suppressed by deduplication exactly
when it lacks field info, some database entry shares its primary location
and carries field info, and the entry has no delegation notes and no
provider relationships at all; whether its relationships or notes duplicate
those of the field-carrying entry plays no part, unlike the uniqueness
condition of the claim (see the counterexample).  Each entry reappears with
at most its suppressed flag raised, and field-carrying entries are never
marked. -/
theorem c2_suppression_amended :
    ∀ (db : DiagnosticDb.Database) (k : DiagnosticDb.DiagnosticKey)
      (e : DiagnosticDb.DiagnosticEntry),
      (DiagnosticDb.deduplicateShould db k e = true
        ↔ e.field_info = none
            ∧ (∃ p ∈ db, p.1.location = k.location ∧ p.2.field_info.isSome = true)
            ∧ e.delegation_notes = [] ∧ e.provider_relationships = [])
      ∧ ((k, e) ∈ db →
          (k, if DiagnosticDb.deduplicateShould db k e
              then { e with suppressed := true } else e) ∈ DiagnosticDb.deduplicate db)
      ∧ (e.field_info.isSome = true → DiagnosticDb.deduplicateShould db k e = false) := by
  intro db k e
  refine ⟨?_, ?_, ?_⟩
  · unfold DiagnosticDb.deduplicateShould
    by_cases hf : e.field_info = none
    · simp only [hf, Option.isNone_none, if_pos]
      cases hrel : DiagnosticDb.find_related_with_field_info db k with
      | none =>
        have hno : ¬ ∃ p ∈ db, p.1.location = k.location ∧ p.2.field_info.isSome = true := by
          rw [← findRelated_isSome_iff, hrel]
          simp
        simp [hno]
      | some k2 =>
        have hyes : ∃ p ∈ db, p.1.location = k.location ∧ p.2.field_info.isSome = true := by
          rw [← findRelated_isSome_iff, hrel]
          rfl
        simp [hyes, List.isEmpty_iff]
    · have hb : e.field_info.isNone = false := by
        cases hv : e.field_info with
        | none => exact absurd hv hf
        | some v => rfl
      simp [hb, hf]
  · intro hmem
    unfold DiagnosticDb.deduplicate
    rw [apply_ite (Prod.mk k)]
    exact List.mem_map_of_mem _ hmem
  · intro h
    unfold DiagnosticDb.deduplicateShould
    have hb : e.field_info.isNone = false := by
      cases hv : e.field_info with
      | none => rw [hv] at h; exact absurd h (by simp)
      | some v => rfl
    simp [hb]

/-- C2, witness for the amended theorem at a concrete input: an entry with
no field info and no relationship or delegation information at a location
carrying a field-specific entry satisfies the suppression condition. -/
theorem c2_suppression_amended_witness :
    DiagnosticDb.deduplicateShould dbC2 keyGenericC2 baseEntry = true :=
  (c2_suppression_amended dbC2 keyGenericC2 baseEntry).1.mpr
    ⟨rfl, ⟨(keyFieldC2, entryFieldC2), by decide, rfl, rfl⟩, rfl, rfl⟩

/-- C2, counterexample to the claim as stated: the generic entry lacks field
info, the field-carrying entry at the same location holds exactly the same
provider relationships and delegation notes, so the generic entry adds no
unique information and the claim demands its suppression; the code leaves
the whole database unchanged because the generic entry carries a non-empty
relationship list. -/
theorem c2_suppression_counterexample :
    entryGenericC2.field_info = none
      ∧ ((keyFieldC2, entryFieldC2) ∈ dbC2
          ∧ keyFieldC2.location = keyGenericC2.location
          ∧ entryFieldC2.field_info.isSome = true)
      ∧ entryGenericC2.provider_relationships = entryFieldC2.provider_relationships
      ∧ entryGenericC2.delegation_notes = entryFieldC2.delegation_notes
      ∧ DiagnosticDb.deduplicate dbC2 = dbC2 :=
  ⟨rfl, ⟨by decide, rfl, rfl⟩, rfl, rfl, by decide⟩

/-- C10.  Deduplication is a pure flag pass: every entry of the database
reappears in place with the same key and with every field other than the
suppressed flag unchanged, a set suppressed flag is never cleared, the entry
count is unchanged, and the key sequence is unchanged, so no entry is
inserted or removed. -/
theorem c10_deduplicate_frame :
    ∀ db : DiagnosticDb.Database,
      List.Forall₂ DiagnosticDb.FramePreserved db (DiagnosticDb.deduplicate db)
      ∧ (DiagnosticDb.get_all_entries (DiagnosticDb.deduplicate db)).length
          = (DiagnosticDb.get_all_entries db).length
      ∧ (DiagnosticDb.deduplicate db).map Prod.fst = db.map Prod.fst := by
  intro db
  refine ⟨?_, ?_, ?_⟩
  · unfold DiagnosticDb.deduplicate
    rw [List.forall₂_map_right_iff]
    rw [List.forall₂_same]
    intro p hp
    by_cases h : DiagnosticDb.deduplicateShould db p.1 p.2 = true
    · simp [DiagnosticDb.FramePreserved, h]
    · simp [DiagnosticDb.FramePreserved, h]
  · simp [DiagnosticDb.get_all_entries, DiagnosticDb.deduplicate]
  · unfold DiagnosticDb.deduplicate
    rw [List.map_map]
    apply List.map_congr_left
    intro p hp
    by_cases h : DiagnosticDb.deduplicateShould db p.1 p.2 = true
    · simp [h]
    · simp [h]

/-- C10, witness at a concrete database: the frame relation holds pointwise
between the suppression-example database and its deduplication. -/
theorem c10_deduplicate_frame_witness :
    List.Forall₂ DiagnosticDb.FramePreserved dbC2 (DiagnosticDb.deduplicate dbC2) :=
  (c10_deduplicate_frame dbC2).1

open DiagnosticDb in
/-- The field-filling step leaves the consumer trait unchanged. -/
theorem mergeFieldStep_consumer (e : DiagnosticEntry) (d : Diagnostic) :
    (mergeFieldStep e d).consumer_trait = e.consumer_trait := by
  unfold DiagnosticDb.mergeFieldStep
  split
  · split <;> rfl
  · rfl

open DiagnosticDb in
/-- The field-filling step leaves the error code unchanged. -/
theorem mergeFieldStep_error (e : DiagnosticEntry) (d : Diagnostic) :
    (mergeFieldStep e d).error_code = e.error_code := by
  unfold DiagnosticDb.mergeFieldStep
  split
  · split <;> rfl
  · rfl

open DiagnosticDb in
/-- The component-filling step leaves field info, consumer trait and error
code unchanged. -/
theorem mergeComponentStep_frame (e : DiagnosticEntry) (d : Diagnostic) :
    (mergeComponentStep e d).field_info = e.field_info
      ∧ (mergeComponentStep e d).consumer_trait = e.consumer_trait
      ∧ (mergeComponentStep e d).error_code = e.error_code := by
  unfold DiagnosticDb.mergeComponentStep
  split <;> exact ⟨rfl, rfl, rfl⟩

open DiagnosticDb in
/-- The consumer-filling step leaves field info and error code
unchanged. -/
theorem mergeConsumerStep_frame (e : DiagnosticEntry) (d : Diagnostic) :
    (mergeConsumerStep e d).field_info = e.field_info
      ∧ (mergeConsumerStep e d).error_code = e.error_code := by
  unfold DiagnosticDb.mergeConsumerStep
  split <;> exact ⟨rfl, rfl⟩

open DiagnosticDb in
/-- The flag step leaves field info, consumer trait and error code
unchanged. -/
theorem mergeFlagStep_frame (e : DiagnosticEntry) (d : Diagnostic) :
    (mergeHasFieldFlagStep e d).field_info = e.field_info
      ∧ (mergeHasFieldFlagStep e d).consumer_trait = e.consumer_trait
      ∧ (mergeHasFieldFlagStep e d).error_code = e.error_code := by
  unfold DiagnosticDb.mergeHasFieldFlagStep
  split <;> exact ⟨rfl, rfl, rfl⟩

open DiagnosticDb in
/-- The error-code step leaves field info and consumer trait
unchanged. -/
theorem mergeErrorCodeStep_frame (e : DiagnosticEntry) (d : Diagnostic) :
    (mergeErrorCodeStep e d).field_info = e.field_info
      ∧ (mergeErrorCodeStep e d).consumer_trait = e.consumer_trait := by
  unfold DiagnosticDb.mergeErrorCodeStep
  split <;> exact ⟨rfl, rfl⟩

open DiagnosticDb CgpPatterns in
/-- Already-present field info is never replaced by the field step. -/
theorem mergeFieldStep_of_some (e : DiagnosticEntry) (d : Diagnostic) (fi : FieldInfo)
    (h : e.field_info = some fi) : (mergeFieldStep e d).field_info = some fi := by
  unfold DiagnosticDb.mergeFieldStep
  simp [h]

open DiagnosticDb in
/-- Field info extractable from either side is present after the field
step. -/
theorem mergeFieldStep_isSome (e : DiagnosticEntry) (d : Diagnostic)
    (h : e.field_info.isSome = true ∨ (extract_field_info d).isSome = true) :
    (mergeFieldStep e d).field_info.isSome = true := by
  unfold DiagnosticDb.mergeFieldStep
  cases hv : e.field_info with
  | some v => simp [hv]
  | none =>
    rw [hv] at h
    simp only [Option.isSome_none, false_or] at h
    cases hx : extract_field_info d with
    | some fi => simp [hv, hx]
    | none => rw [hx] at h; exact absurd h (by simp)

open DiagnosticDb in
/-- An already-present consumer trait is never replaced. -/
theorem mergeConsumerStep_of_some (e : DiagnosticEntry) (d : Diagnostic) (t : Str)
    (h : e.consumer_trait = some t) : (mergeConsumerStep e d).consumer_trait = some t := by
  unfold DiagnosticDb.mergeConsumerStep
  simp [h]

open DiagnosticDb in
/-- A consumer trait extractable from either side is present after the
consumer step. -/
theorem mergeConsumerStep_isSome (e : DiagnosticEntry) (d : Diagnostic)
    (h : e.consumer_trait.isSome = true
      ∨ (extract_consumer_trait_from_diagnostic d).isSome = true) :
    (mergeConsumerStep e d).consumer_trait.isSome = true := by
  unfold DiagnosticDb.mergeConsumerStep
  cases hv : e.consumer_trait with
  | some v => simp [hv]
  | none =>
    rcases h with h | h
    · rw [hv] at h
      simp at h
    · simp [hv, h]

open DiagnosticDb in
/-- An already-present error code is never replaced. -/
theorem mergeErrorCodeStep_of_some (e : DiagnosticEntry) (d : Diagnostic) (c : Str)
    (h : e.error_code = some c) : (mergeErrorCodeStep e d).error_code = some c := by
  unfold DiagnosticDb.mergeErrorCodeStep
  simp [h]

open DiagnosticDb in
/-- An error code present on either side is present after the error-code
step. -/
theorem mergeErrorCodeStep_isSome (e : DiagnosticEntry) (d : Diagnostic)
    (h : e.error_code.isSome = true ∨ d.code.isSome = true) :
    (mergeErrorCodeStep e d).error_code.isSome = true := by
  unfold DiagnosticDb.mergeErrorCodeStep
  cases hv : e.error_code with
  | some v => simp [hv]
  | none =>
    rcases h with h | h
    · rw [hv] at h
      simp at h
    · simp [hv, h]

open DiagnosticDb in
/-- The relationship-appending step leaves field info, consumer trait and
error code unchanged. -/
theorem mergeRelationshipsStep_frame (e : DiagnosticEntry) (d : Diagnostic) :
    (mergeRelationshipsStep e d).field_info = e.field_info
      ∧ (mergeRelationshipsStep e d).consumer_trait = e.consumer_trait
      ∧ (mergeRelationshipsStep e d).error_code = e.error_code :=
  ⟨rfl, rfl, rfl⟩

open DiagnosticDb in
/-- The note-appending step leaves field info, consumer trait and error
code unchanged. -/
theorem mergeNotesStep_frame (e : DiagnosticEntry) (d : Diagnostic) :
    (mergeNotesStep e d).field_info = e.field_info
      ∧ (mergeNotesStep e d).consumer_trait = e.consumer_trait
      ∧ (mergeNotesStep e d).error_code = e.error_code :=
  ⟨rfl, rfl, rfl⟩

open DiagnosticDb in
/-- C1.  Merge monotonicity: merging a later raw diagnostic into an entry
at the same grouping key never replaces an already-present field info,
consumer trait or error code, and whenever one of these is present on the
entry or extractable from the new diagnostic it is present in the merged
entry. -/
theorem c1_merge_monotonicity :
    ∀ (e : DiagnosticEntry) (d : Diagnostic),
      (∀ fi, e.field_info = some fi →
        (merge_diagnostic_info e d).field_info = some fi)
      ∧ (∀ t, e.consumer_trait = some t →
        (merge_diagnostic_info e d).consumer_trait = some t)
      ∧ (∀ c, e.error_code = some c →
        (merge_diagnostic_info e d).error_code = some c)
      ∧ ((e.field_info.isSome = true ∨ (extract_field_info d).isSome = true) →
        (merge_diagnostic_info e d).field_info.isSome = true)
      ∧ ((e.consumer_trait.isSome = true
            ∨ (extract_consumer_trait_from_diagnostic d).isSome = true) →
        (merge_diagnostic_info e d).consumer_trait.isSome = true)
      ∧ ((e.error_code.isSome = true ∨ d.code.isSome = true) →
        (merge_diagnostic_info e d).error_code.isSome = true) := by
  intro e d
  have hfield : (merge_diagnostic_info e d).field_info
      = (mergeFieldStep e d).field_info := by
    unfold DiagnosticDb.merge_diagnostic_info
    rw [(mergeErrorCodeStep_frame _ _).1, (mergeFlagStep_frame _ _).1,
      (mergeNotesStep_frame _ _).1, (mergeRelationshipsStep_frame _ _).1,
      (mergeConsumerStep_frame _ _).1, (mergeComponentStep_frame _ _).1]
  have hcons : (merge_diagnostic_info e d).consumer_trait
      = (mergeConsumerStep (mergeComponentStep (mergeFieldStep e d) d) d).consumer_trait := by
    unfold DiagnosticDb.merge_diagnostic_info
    rw [(mergeErrorCodeStep_frame _ _).2, (mergeFlagStep_frame _ _).2.1,
      (mergeNotesStep_frame _ _).2.1, (mergeRelationshipsStep_frame _ _).2.1]
  have hconsBase : (mergeComponentStep (mergeFieldStep e d) d).consumer_trait
      = e.consumer_trait := by
    rw [(mergeComponentStep_frame _ _).2.1, mergeFieldStep_consumer]
  have herrBase : (mergeHasFieldFlagStep (mergeNotesStep (mergeRelationshipsStep
      (mergeConsumerStep (mergeComponentStep (mergeFieldStep e d) d) d) d) d) d).error_code
      = e.error_code := by
    rw [(mergeFlagStep_frame _ _).2.2, (mergeNotesStep_frame _ _).2.2,
      (mergeRelationshipsStep_frame _ _).2.2, (mergeConsumerStep_frame _ _).2,
      (mergeComponentStep_frame _ _).2.2, mergeFieldStep_error]
  refine ⟨?_, ?_, ?_, ?_, ?_, ?_⟩
  · intro fi h
    rw [hfield]
    exact mergeFieldStep_of_some e d fi h
  · intro t h
    rw [hcons]
    exact mergeConsumerStep_of_some _ d t (by rw [hconsBase]; exact h)
  · intro c h
    show (mergeErrorCodeStep _ d).error_code = some c
    exact mergeErrorCodeStep_of_some _ d c (by rw [herrBase]; exact h)
  · intro h
    rw [hfield]
    exact mergeFieldStep_isSome e d h
  · intro h
    rw [hcons]
    exact mergeConsumerStep_isSome _ d (by rw [hconsBase]; exact h)
  · intro h
    show (mergeErrorCodeStep _ d).error_code.isSome = true
    exact mergeErrorCodeStep_isSome _ d (by rw [herrBase]; exact h)

/-- C1, witness for the merge monotonicity at a concrete input: an entry
already carrying field info, a consumer trait and an error code keeps all
three through a merge with the empty diagnostic. -/
theorem c1_merge_monotonicity_witness :
    (DiagnosticDb.merge_diagnostic_info entryC1 emptyDiagnostic).field_info = some fiSample
      ∧ (DiagnosticDb.merge_diagnostic_info entryC1 emptyDiagnostic).consumer_trait
          = some ("CanCalcArea".toList)
      ∧ (DiagnosticDb.merge_diagnostic_info entryC1 emptyDiagnostic).error_code
          = some ("E0277".toList) :=
  ⟨(c1_merge_monotonicity entryC1 emptyDiagnostic).1 fiSample rfl,
    (c1_merge_monotonicity entryC1 emptyDiagnostic).2.1 _ rfl,
    (c1_merge_monotonicity entryC1 emptyDiagnostic).2.2.1 _ rfl⟩

/-- The bracket scanner stops exactly at the closing bracket matching the
already-open one: on a body whose prefixes never drive the depth to zero
and whose bracket counts balance, the scanner reports the position of the
first closing bracket after the body. -/
theorem findClose_append (sfx : Str) :
    ∀ (body : Str) (d : Nat), 1 ≤ d →
      (∀ p, p <+: body → p.count '>' + 1 ≤ p.count '<' + d) →
      (body.count '<' + d = body.count '>' + 1) →
      CgpPatterns.findClose (body ++ '>' :: sfx) d = some body.length := by
  intro body
  induction body with
  | nil =>
    intro d hd hpre hend
    have hd1 : d = 1 := by simpa using hend
    subst hd1
    simp [CgpPatterns.findClose]
  | cons c rest ih =>
    intro d hd hpre hend
    by_cases hc1 : c = '<'
    · subst hc1
      rw [List.cons_append]
      have hcount1 : ('<' :: rest).count '<' = rest.count '<' + 1 :=
        List.count_cons_self '<' rest
      have hcount2 : ('<' :: rest).count '>' = rest.count '>' :=
        List.count_cons_of_ne (by decide) rest
      have hrec := ih (d + 1) (by omega)
        (fun p hp => by
          have h := hpre ('<' :: p) (List.cons_prefix_cons.mpr ⟨rfl, hp⟩)
          have e1 : ('<' :: p).count '<' = p.count '<' + 1 := List.count_cons_self '<' p
          have e2 : ('<' :: p).count '>' = p.count '>' := List.count_cons_of_ne (by decide) p
          omega)
        (by rw [hcount1, hcount2] at hend; omega)
      simp only [CgpPatterns.findClose, if_pos rfl]
      rw [hrec]
      simp
    · by_cases hc2 : c = '>'
      · subst hc2
        have hd2 : 2 ≤ d := by
          have h := hpre ['>'] (by
            refine ⟨rest, rfl⟩)
          simpa using h
        rw [List.cons_append]
        have hcount1 : ('>' :: rest).count '<' = rest.count '<' :=
          List.count_cons_of_ne (by decide) rest
        have hcount2 : ('>' :: rest).count '>' = rest.count '>' + 1 :=
          List.count_cons_self '>' rest
        have hrec := ih (d - 1) (by omega)
          (fun p hp => by
            have h := hpre ('>' :: p) (List.cons_prefix_cons.mpr ⟨rfl, hp⟩)
            have e1 : ('>' :: p).count '<' = p.count '<' := List.count_cons_of_ne (by decide) p
            have e2 : ('>' :: p).count '>' = p.count '>' + 1 := List.count_cons_self '>' p
            omega)
          (by rw [hcount1, hcount2] at hend; omega)
        have hne : ('>' : Char) = '<' ↔ False := by decide
        simp only [CgpPatterns.findClose, hne, if_false, if_pos rfl, if_neg (by omega : ¬ d = 1)]
        rw [hrec]
        simp
      · rw [List.cons_append]
        have hcount1 : (c :: rest).count '<' = rest.count '<' :=
          List.count_cons_of_ne (fun h => hc1 h.symm) rest
        have hcount2 : (c :: rest).count '>' = rest.count '>' :=
          List.count_cons_of_ne (fun h => hc2 h.symm) rest
        have hrec := ih d hd
          (fun p hp => by
            have h := hpre (c :: p) (List.cons_prefix_cons.mpr ⟨rfl, hp⟩)
            have e1 : (c :: p).count '<' = p.count '<' :=
              List.count_cons_of_ne (fun h => hc1 h.symm) p
            have e2 : (c :: p).count '>' = p.count '>' :=
              List.count_cons_of_ne (fun h => hc2 h.symm) p
            omega)
          (by rw [hcount1, hcount2] at hend; omega)
        simp only [CgpPatterns.findClose, if_neg hc1, if_neg hc2]
        rw [hrec]
        simp

/-- C4, amended.  For every input of the shape prefix, opening bracket,
balanced body, closing bracket, suffix, with the scan starting just after
that opening bracket, the extraction returns the body trimmed of
surrounding whitespace (the source trims; the exact substring of the claim
fails on a body with surrounding whitespace, see the counterexample); and
the extraction always returns a value, for all inputs. -/
theorem c4_balanced_extraction_amended :
    (∀ (pfx body sfx : Str), balancedAnglesB body = true →
      CgpPatterns.extract_balanced_generic (pfx ++ '<' :: (body ++ '>' :: sfx))
          (pfx.length + 1)
        = some (trimStr body))
    ∧ (∀ (text : Str) (start_pos : Nat),
        (CgpPatterns.extract_balanced_generic text start_pos).isSome = true) := by
  constructor
  · intro pfx body sfx hbal
    unfold balancedAnglesB at hbal
    rw [Bool.and_eq_true] at hbal
    obtain ⟨hall, hcnt⟩ := hbal
    have hcnt2 : body.count '<' = body.count '>' := by
      exact beq_iff_eq.mp hcnt
    have hpre : ∀ p, p <+: body → p.count '>' + 1 ≤ p.count '<' + 1 := by
      intro p hp
      have := List.all_eq_true.mp hall p ((List.mem_inits p body).mpr hp)
      have h2 : p.count '>' ≤ p.count '<' := of_decide_eq_true this
      omega
    have hdrop : (pfx ++ '<' :: (body ++ '>' :: sfx)).drop (pfx.length + 1)
        = body ++ '>' :: sfx := by
      have heq : pfx ++ '<' :: (body ++ '>' :: sfx)
          = (pfx ++ ['<']) ++ (body ++ '>' :: sfx) := by simp
      have hlen : pfx.length + 1 = (pfx ++ ['<']).length := by simp
      rw [heq, hlen, List.drop_left]
    unfold CgpPatterns.extract_balanced_generic
    rw [hdrop]
    show (match CgpPatterns.findClose (body ++ '>' :: sfx) 1 with
      | some i => some (trimStr ((body ++ '>' :: sfx).take i))
      | none => some (trimStr (CgpPatterns.extract_balanced_generic.trimEndMatesFix
          (body ++ '>' :: sfx)))) = some (trimStr body)
    rw [findClose_append sfx body 1 (Nat.le_refl 1) hpre (by omega)]
    simp only [List.take_left]
  · intro text start_pos
    unfold CgpPatterns.extract_balanced_generic
    cases h : CgpPatterns.findClose (text.drop start_pos) 1 <;> simp [h]

/-- C4, counterexample to the claim as stated: with the body ` B` between
the brackets, the extraction returns `B`, not the exact substring ` B`
between the bracket and its match. -/
theorem c4_balanced_extraction_counterexample :
    CgpPatterns.extract_balanced_generic ("A< B>".toList) 2 = some ("B".toList)
      ∧ ("B".toList) ≠ (" B".toList) := by
  constructor
  · decide
  · decide

/-- C4, witness for the amended theorem at a concrete nested input. -/
theorem c4_balanced_extraction_amended_witness :
    balancedAnglesB ("Foo<Bar, Baz>".toList) = true
      ∧ CgpPatterns.extract_balanced_generic
          (("CanUseComponent".toList) ++ '<' :: (("Foo<Bar, Baz>".toList) ++ '>' :: (" rest".toList)))
          (("CanUseComponent".toList).length + 1)
        = some (trimStr ("Foo<Bar, Baz>".toList)) :=
  ⟨by decide, c4_balanced_extraction_amended.1 ("CanUseComponent".toList) ("Foo<Bar, Baz>".toList) (" rest".toList) (by decide)⟩

/-- The spec-modelled scan collects exactly the characters of the source
scan; the flag tracking does not alter the collection. -/
theorem extractCharsV2Go_fst (text : Str) :
    ∀ (fuel idx : Nat) (acc : List Char) (b : Bool),
      (CgpPatterns.extractCharsV2Go text fuel idx (acc, b)).1
        = CgpPatterns.extractCharsGo text fuel idx acc := by
  intro fuel
  induction fuel with
  | zero => intro idx acc b; rfl
  | succ fuel ih =>
    intro idx acc b
    by_cases hlt : idx < text.length
    · simp only [CgpPatterns.extractCharsV2Go, CgpPatterns.extractCharsGo, if_pos hlt]
      by_cases hp : CgpPatterns.charsQuotePat.isPrefixOf (text.drop idx) = true
      · simp only [if_pos hp]
        cases hh : (text.drop (idx + 7)).head? with
        | none => exact ih (idx + 1) acc b
        | some ch =>
          by_cases hcond : ch ≠ quoteChar ∧ ch ≠ '_' ∧ ch.isAlpha = true
          · simp only [if_pos hcond]
            exact ih (idx + 1) (acc ++ [ch]) b
          · simp only [if_neg hcond]
            by_cases h2 : ch = '_'
            · simp only [if_pos h2]
              exact ih (idx + 1) acc true
            · simp only [if_neg h2]
              exact ih (idx + 1) acc b
      · simp only [if_neg hp]
        exact ih (idx + 1) acc b
    · simp only [CgpPatterns.extractCharsV2Go, CgpPatterns.extractCharsGo, if_neg hlt]

/-- Every character collected by the scan is alphabetic and is not the
placeholder. -/
theorem extractCharsGo_alpha (text : Str) :
    ∀ (fuel idx : Nat) (acc : List Char),
      (∀ c ∈ acc, c.isAlpha = true ∧ c ≠ '_') →
      ∀ c ∈ CgpPatterns.extractCharsGo text fuel idx acc, c.isAlpha = true ∧ c ≠ '_' := by
  intro fuel
  induction fuel with
  | zero => intro idx acc hacc; exact hacc
  | succ fuel ih =>
    intro idx acc hacc
    by_cases hlt : idx < text.length
    · simp only [CgpPatterns.extractCharsGo, if_pos hlt]
      by_cases hp : CgpPatterns.charsQuotePat.isPrefixOf (text.drop idx) = true
      · simp only [if_pos hp]
        cases hh : (text.drop (idx + 7)).head? with
        | none => exact ih (idx + 1) acc hacc
        | some ch =>
          by_cases hcond : ch ≠ quoteChar ∧ ch ≠ '_' ∧ ch.isAlpha = true
          · simp only [if_pos hcond]
            refine ih (idx + 1) (acc ++ [ch]) ?_
            intro c hc
            rcases List.mem_append.mp hc with h | h
            · exact hacc c h
            · rcases List.mem_singleton.mp h with rfl
              exact ⟨hcond.2.2, hcond.2.1⟩
          · simp only [if_neg hcond]
            exact ih (idx + 1) acc hacc
      · simp only [if_neg hp]
        exact ih (idx + 1) acc hacc
    · simp only [CgpPatterns.extractCharsGo, if_neg hlt]
      exact hacc

/-- The placeholder flag of the spec-modelled scan is set exactly when the
scan window holds a `Chars` marker whose quoted character is the
placeholder. -/
theorem extractCharsV2Go_flag (text : Str) :
    ∀ (fuel idx : Nat) (acc : List Char) (b : Bool),
      ((CgpPatterns.extractCharsV2Go text fuel idx (acc, b)).2 = true
        ↔ b = true
          ∨ ∃ j, idx ≤ j ∧ j < idx + fuel ∧ j < text.length
              ∧ CgpPatterns.charsQuotePat.isPrefixOf (text.drop j) = true
              ∧ (text.drop (j + 7)).head? = some '_') := by
  intro fuel
  induction fuel with
  | zero =>
    intro idx acc b
    constructor
    · intro h
      exact Or.inl h
    · rintro (h | ⟨j, h1, h2, _⟩)
      · exact h
      · omega
  | succ fuel ih =>
    intro idx acc b
    by_cases hlt : idx < text.length
    · simp only [CgpPatterns.extractCharsV2Go, if_pos hlt]
      by_cases hp : CgpPatterns.charsQuotePat.isPrefixOf (text.drop idx) = true
      · simp only [if_pos hp]
        cases hh : (text.drop (idx + 7)).head? with
        | none =>
          rw [ih (idx + 1) acc b]
          constructor
          · rintro (h | ⟨j, h1, h2, h3, h4, h5⟩)
            · exact Or.inl h
            · exact Or.inr ⟨j, by omega, by omega, h3, h4, h5⟩
          · rintro (h | ⟨j, h1, h2, h3, h4, h5⟩)
            · exact Or.inl h
            · refine Or.inr ⟨j, ?_, by omega, h3, h4, h5⟩
              rcases Nat.eq_or_lt_of_le h1 with rfl | hj
              · rw [hh] at h5
                exact absurd h5 (by simp)
              · omega
        | some ch =>
          by_cases hcond : ch ≠ quoteChar ∧ ch ≠ '_' ∧ ch.isAlpha = true
          · simp only [if_pos hcond]
            rw [ih (idx + 1) (acc ++ [ch]) b]
            constructor
            · rintro (h | ⟨j, h1, h2, h3, h4, h5⟩)
              · exact Or.inl h
              · exact Or.inr ⟨j, by omega, by omega, h3, h4, h5⟩
            · rintro (h | ⟨j, h1, h2, h3, h4, h5⟩)
              · exact Or.inl h
              · refine Or.inr ⟨j, ?_, by omega, h3, h4, h5⟩
                rcases Nat.eq_or_lt_of_le h1 with rfl | hj
                · rw [hh] at h5
                  have : ch = '_' := by
                    exact (Option.some_injective _ h5)
                  exact absurd this hcond.2.1
                · omega
          · simp only [if_neg hcond]
            by_cases h2 : ch = '_'
            · simp only [if_pos h2]
              rw [ih (idx + 1) acc true]
              constructor
              · intro _
                exact Or.inr ⟨idx, Nat.le_refl idx, by omega, hlt, hp, by rw [hh, h2]⟩
              · intro _
                exact Or.inl rfl
            · simp only [if_neg h2]
              rw [ih (idx + 1) acc b]
              constructor
              · rintro (h | ⟨j, h1, hlt2, h3, h4, h5⟩)
                · exact Or.inl h
                · exact Or.inr ⟨j, by omega, by omega, h3, h4, h5⟩
              · rintro (h | ⟨j, h1, hlt2, h3, h4, h5⟩)
                · exact Or.inl h
                · refine Or.inr ⟨j, ?_, by omega, h3, h4, h5⟩
                  rcases Nat.eq_or_lt_of_le h1 with rfl | hj
                  · rw [hh] at h5
                    exact absurd (Option.some_injective _ h5) h2
                  · omega
      · simp only [if_neg hp]
        rw [ih (idx + 1) acc b]
        constructor
        · rintro (h | ⟨j, h1, h2, h3, h4, h5⟩)
          · exact Or.inl h
          · exact Or.inr ⟨j, by omega, by omega, h3, h4, h5⟩
        · rintro (h | ⟨j, h1, h2, h3, h4, h5⟩)
          · exact Or.inl h
          · refine Or.inr ⟨j, ?_, by omega, h3, h4, h5⟩
            rcases Nat.eq_or_lt_of_le h1 with rfl | hj
            · exact absurd h4 hp
            · omega
    · simp only [CgpPatterns.extractCharsV2Go, if_neg hlt]
      constructor
      · intro h
        exact Or.inl h
      · rintro (h | ⟨j, h1, h2, h3, _⟩)
        · exact h
        · omega

/-- The placeholder flag of the full extraction equals the placeholder
marker predicate over the whole text. -/
theorem extractCharsV2_flag_iff (text : Str) :
    ((CgpPatterns.extract_chars_from_pattern_v2 text).2 = true
      ↔ CgpPatterns.placeholderMarkerB text = true) := by
  unfold CgpPatterns.extract_chars_from_pattern_v2 CgpPatterns.placeholderMarkerB
  rw [extractCharsV2Go_flag text text.length 0 [] false]
  rw [List.any_eq_true]
  constructor
  · rintro (h | ⟨j, _, h2, h3, h4, h5⟩)
    · exact absurd h (by simp)
    · refine ⟨j, List.mem_range.mpr h3, ?_⟩
      rw [Bool.and_eq_true]
      exact ⟨h4, by rw [h5]; rfl⟩
  · rintro ⟨j, hj, hb⟩
    rw [Bool.and_eq_true] at hb
    refine Or.inr ⟨j, Nat.zero_le j, ?_, List.mem_range.mp hj, hb.1, ?_⟩
    · have := List.mem_range.mp hj
      omega
    · have := hb.2
      rwa [beq_iff_eq] at this

/-- C5 (spec-modelled for the `has_unknown_chars` flag).  The extractor
collects only alphabetic non-placeholder characters, and its collection
agrees with the source extractor; the completeness bit is set exactly when
the number of collected characters equals the declared `Symbol` length; the
`has_unknown_chars` flag is set exactly when a placeholder marker occurs in
the scanned part, hence whenever a placeholder character was skipped; and
whenever an entry carries field info with the flag set, the redaction
warning line is one of the help sections of the rendered missing-field
diagnostic. -/
theorem c5_field_reconstruction :
    (∀ text : Str,
      (CgpPatterns.extract_chars_from_pattern_v2 text).1
        = CgpPatterns.extract_chars_from_pattern text)
    ∧ (∀ (text : Str) (c : Char),
        c ∈ CgpPatterns.extract_chars_from_pattern text → c.isAlpha = true ∧ c ≠ '_')
    ∧ (∀ text : Str,
        ((CgpPatterns.extract_chars_from_pattern_v2 text).2 = true
          ↔ CgpPatterns.placeholderMarkerB text = true))
    ∧ (∀ (msg name : Str) (comp unk : Bool),
        CgpPatterns.extract_field_name_from_symbol_v2 msg = some (name, comp, unk) →
          (∃ n, CgpPatterns.extract_symbol_length (CgpPatterns.relevantSymbolPart msg) = some n
              ∧ (comp = true ↔ name.length = n))
          ∧ (unk = true ↔ CgpPatterns.placeholderMarkerB (CgpPatterns.relevantSymbolPart msg) = true)
          ∧ CgpPatterns.extract_field_name_from_symbol msg = some (name, comp))
    ∧ (∀ (entry : ErrorFormatting.EntryV2) (fi : ErrorFormatting.FieldInfoV2),
        fi.has_unknown_chars = true →
          ErrorFormatting.unknownCharsWarning ∈ ErrorFormatting.formatMissingFieldSections entry fi) := by
  refine ⟨?_, ?_, ?_, ?_, ?_⟩
  · intro text
    exact extractCharsV2Go_fst text text.length 0 [] false
  · intro text c hc
    exact extractCharsGo_alpha text text.length 0 [] (by intro c hc2; exact absurd hc2 (by simp)) c hc
  · exact extractCharsV2_flag_iff
  · intro msg name comp unk h
    simp only [CgpPatterns.extract_field_name_from_symbol_v2] at h
    cases hn : CgpPatterns.extract_symbol_length (CgpPatterns.relevantSymbolPart msg) with
    | none =>
      rw [hn] at h
      simp at h
    | some n =>
      rw [hn] at h
      dsimp only [] at h
      by_cases hemp : (CgpPatterns.extract_chars_from_pattern_v2 (CgpPatterns.relevantSymbolPart msg)).1.isEmpty = true
      · rw [if_pos hemp] at h
        exact absurd h (by simp)
      · rw [if_neg hemp] at h
        have hinj := Option.some_injective _ h
        have h1 : (CgpPatterns.extract_chars_from_pattern_v2 (CgpPatterns.relevantSymbolPart msg)).1 = name :=
          congrArg (fun t => t.1) hinj
        have h2 : ((CgpPatterns.extract_chars_from_pattern_v2 (CgpPatterns.relevantSymbolPart msg)).1.length == n) = comp := by
          have := congrArg (fun t => t.2.1) hinj
          simpa using this
        have h3 : (CgpPatterns.extract_chars_from_pattern_v2 (CgpPatterns.relevantSymbolPart msg)).2 = unk := by
          have := congrArg (fun t => t.2.2) hinj
          simpa using this
        have h2n : (name.length == n) = comp := by
          rw [← h1]
          exact h2
        refine ⟨⟨n, rfl, ?_⟩, ?_, ?_⟩
        · rw [← h2n]
          constructor
          · intro hb
            exact beq_iff_eq.mp hb
          · intro hb
            exact beq_iff_eq.mpr hb
        · rw [← h3]
          exact extractCharsV2_flag_iff _
        · have hfst2 : CgpPatterns.extract_chars_from_pattern (CgpPatterns.relevantSymbolPart msg)
              = name := by
            rw [← h1]
            exact (extractCharsV2Go_fst (CgpPatterns.relevantSymbolPart msg)
              (CgpPatterns.relevantSymbolPart msg).length 0 [] false).symm
          have hemp2 : ¬ name.isEmpty = true := by
            intro hv
            apply hemp
            rw [h1]
            exact hv
          simp only [CgpPatterns.extract_field_name_from_symbol]
          rw [hn]
          dsimp only []
          rw [hfst2, if_neg hemp2, h2n]
  · intro entry fi h
    simp [ErrorFormatting.formatMissingFieldSections, h]

/-- C5, witness at concrete inputs: the message declaring length two with
one visible character and one placeholder yields the incomplete, flagged
extraction, the source extractor agrees, and the redaction warning appears
among the help sections of the flagged entry. -/
theorem c5_field_reconstruction_witness :
    ErrorFormatting.unknownCharsWarning
        ∈ ErrorFormatting.formatMissingFieldSections entryC5 fiC5
      ∧ CgpPatterns.extract_field_name_from_symbol msgC5 = some (("a".toList), false) :=
  ⟨c5_field_reconstruction.2.2.2.2 entryC5 fiC5 rfl,
    (c5_field_reconstruction.2.2.2.1 msgC5 ("a".toList) false true (by decide)).2.2⟩

open ErrorFormatting in
/-- A node without children is reference-safe. -/
theorem RefSafe_leaf (d : Str) (t : Option Str) (s : Option Bool) (r : Bool) :
    RefSafe (DependencyNode.mk d t s r []) := by
  intro fuel n hn hr
  cases fuel with
  | zero =>
    rw [ErrorFormatting.subtreeNodesFuel, List.mem_singleton] at hn
    subst hn
    rfl
  | succ fuel =>
    rw [ErrorFormatting.subtreeNodesFuel] at hn
    simp only [ErrorFormatting.DependencyNode.children, List.map_nil, List.flatten_nil] at hn
    rw [List.mem_singleton] at hn
    subst hn
    rfl

open ErrorFormatting in
/-- A non-reference node with reference-safe children is
reference-safe. -/
theorem RefSafe_node (d : Str) (t : Option Str) (s : Option Bool)
    (cs : List DependencyNode) (h : ∀ c ∈ cs, RefSafe c) :
    RefSafe (DependencyNode.mk d t s false cs) := by
  intro fuel n hn hr
  cases fuel with
  | zero =>
    rw [ErrorFormatting.subtreeNodesFuel, List.mem_singleton] at hn
    subst hn
    exact absurd hr (by simp [ErrorFormatting.DependencyNode.is_reference])
  | succ fuel =>
    rw [ErrorFormatting.subtreeNodesFuel] at hn
    rcases List.mem_cons.mp hn with rfl | hmem
    · exact absurd hr (by simp [ErrorFormatting.DependencyNode.is_reference])
    · rcases List.mem_flatten.mp hmem with ⟨l, hl, hnl⟩
      rcases List.mem_map.mp hl with ⟨c, hc, rfl⟩
      exact h c hc fuel n hnl hr

open ErrorFormatting in
/-- Every node produced by the getter-node loop is reference-safe: getter
nodes are non-reference and their only possible child is the childless
field node. -/
theorem getter_nodes_go_safe (entry : EntryV2) (ctx : Str) :
    ∀ (notes : List Str) (first : Bool) (n : DependencyNode),
      n ∈ ErrorFormatting.buildGetterNodesGo entry ctx notes first → RefSafe n := by
  intro notes
  induction notes with
  | nil => intro first n hn; exact absurd hn (by simp [ErrorFormatting.buildGetterNodesGo])
  | cons note rest ih =>
    intro first n hn
    rw [ErrorFormatting.buildGetterNodesGo] at hn
    cases hx : ErrorFormatting.extract_getter_trait_from_note note with
    | none =>
      rw [hx] at hn
      exact ih first n hn
    | some gt =>
      rw [hx] at hn
      dsimp only [] at hn
      rcases List.mem_cons.mp hn with rfl | hmem
      · apply RefSafe_node
        intro c hc
        by_cases hf : first = true
        · rw [if_pos hf] at hc
          cases hfi : entry.field_info with
          | none =>
            rw [hfi] at hc
            exact absurd hc (by simp)
          | some fi =>
            rw [hfi] at hc
            rw [List.mem_singleton] at hc
            subst hc
            exact RefSafe_leaf _ _ _ _
        · rw [if_neg hf] at hc
          exact absurd hc (by simp)
      · exact ih false n hmem

open ErrorFormatting in
/-- Every getter node of an entry is reference-safe. -/
theorem getter_nodes_safe (entry : EntryV2) (ctx : Str) (n : DependencyNode)
    (hn : n ∈ ErrorFormatting.build_getter_nodes entry ctx) : RefSafe n :=
  getter_nodes_go_safe entry ctx entry.delegation_notes true n hn

open ErrorFormatting in
/-- Every node produced for a nested consumer trait is reference-safe: the
reference case is a childless leaf, the other cases carry non-reference
provider subtrees over getter nodes. -/
theorem nested_nodes_safe (entry : EntryV2) (nc : NestedConsumerTrait) (ctx : Str)
    (rendered : List Str) (n : DependencyNode)
    (hn : n ∈ ErrorFormatting.build_nested_consumer_provider_nodes entry nc ctx rendered) :
    RefSafe n := by
  simp only [ErrorFormatting.build_nested_consumer_provider_nodes] at hn
  split at hn
  · rw [List.mem_singleton] at hn
    subst hn
    exact RefSafe_leaf _ _ _ _
  · rw [List.mem_singleton] at hn
    subst hn
    apply RefSafe_node
    intro c hc
    repeat' split at hc
    all_goals simp only [List.mem_singleton, List.not_mem_nil] at hc
    all_goals subst hc
    all_goals
      first
        | exact RefSafe_leaf _ _ _ _
        | (apply RefSafe_node
           intro g hg
           exact getter_nodes_safe entry _ g hg)

open ErrorFormatting in
/-- Every provider node built for a component is reference-safe. -/
theorem provider_nodes_safe (entry : EntryV2) (ctx : Str)
    (ci : Option CgpPatterns.ComponentInfo)
    (rel : Option CgpPatterns.ProviderRelationship)
    (rendered : List Str) (cur : Option Str) (n : DependencyNode)
    (hn : n ∈ ErrorFormatting.build_provider_nodes_for_component entry ctx ci rel
      rendered cur) : RefSafe n := by
  simp only [ErrorFormatting.build_provider_nodes_for_component] at hn
  repeat' split at hn
  all_goals simp only [List.mem_singleton, List.not_mem_nil] at hn
  all_goals subst hn
  all_goals apply RefSafe_node
  all_goals intro c hc
  all_goals
    repeat' (first
      | exact getter_nodes_safe entry _ c hc
      | exact RefSafe_leaf _ _ _ _
      | exact absurd hc (List.not_mem_nil c)
      | (rcases List.mem_append.mp hc with hc | hc)
      | (rcases List.mem_flatten.mp hc with ⟨l2, hl2, hc⟩
         rcases List.mem_map.mp hl2 with ⟨nc2, hnc2, hleq⟩
         subst hleq
         exact nested_nodes_safe entry nc2 ctx rendered c hc)
      | (rw [List.mem_singleton] at hc
         subst hc))

open ErrorFormatting in
/-- Every root-level consumer node of the component loop is
reference-safe. -/
theorem bdtGo_safe (entry : EntryV2) (ctx : Str) :
    ∀ (comps : List CgpPatterns.ComponentInfo) (rendered : List Str)
      (n : DependencyNode), n ∈ ErrorFormatting.bdtGo entry ctx comps rendered →
      RefSafe n := by
  intro comps
  induction comps with
  | nil =>
    intro rendered n hn
    exact absurd hn (by simp [ErrorFormatting.bdtGo])
  | cons ci rest ih =>
    intro rendered n hn
    rw [ErrorFormatting.bdtGo] at hn
    rcases List.mem_cons.mp hn with rfl | hmem
    · apply RefSafe_node
      intro c hc
      split at hc
      · exact provider_nodes_safe entry ctx (some ci) _ rendered _ c hc
      · exact provider_nodes_safe entry ctx (some ci) none rendered _ c hc
    · exact ih _ n hmem

open ErrorFormatting in
/-- C3, amended.  In every dependency tree built for an entry, every node
flagged as a reference is a leaf with no children, and a nested consumer
trait whose name is among the already-rendered root-level consumer-trait
names is emitted as exactly that childless reference leaf.  The claim that
no consumer-trait name occurs fully expanded more than once fails: the
rendered set receives only root-level consumer-trait names, so repeats
among nested consumer nodes are expanded again (see the
counterexample). -/
theorem c3_tree_reference_amended :
    (∀ (entry : EntryV2) (t : DependencyNode),
      ErrorFormatting.build_dependency_tree entry = some t → RefSafe t)
    ∧ (∀ (entry : EntryV2) (nc : NestedConsumerTrait) (ctx : Str)
        (rendered : List Str), nc.trait_name ∈ rendered →
        ErrorFormatting.build_nested_consumer_provider_nodes entry nc ctx rendered
          = [DependencyNode.mk
              (("`".toList) ++ nc.trait_name ++ ("` for `".toList)
                ++ nc.context_type ++ ("`".toList))
              (some ("consumer trait".toList)) none true []]) := by
  constructor
  · intro entry t ht
    simp only [ErrorFormatting.build_dependency_tree, Option.bind_eq_bind, Option.bind] at ht
    repeat' split at ht
    all_goals try (cases hctx : ErrorFormatting.extract_context_from_notes entry.delegation_notes <;> rw [hctx] at ht)
    all_goals try dsimp only [] at ht
    all_goals
      first
        | exact Option.noConfusion ht
        | (rw [Option.some_inj] at ht
           subst ht
           apply RefSafe_node
           intro c hc
           rcases List.mem_append.mp hc with hc1 | hc2
           · exact bdtGo_safe entry _ entry.component_infos [] c hc1
           · first
               | exact provider_nodes_safe entry _ none none [] none c hc2
               | exact absurd hc2 (List.not_mem_nil c))
  · intro entry nc ctx rendered hmem
    have hrefb : (rendered.any fun r => r == nc.trait_name) = true := by
      rw [List.any_eq_true]
      exact ⟨nc.trait_name, hmem, beq_self_eq_true _⟩
    simp only [ErrorFormatting.build_nested_consumer_provider_nodes, hrefb, if_pos]

/-- C3, counterexample to the claim as stated: in the tree built for the
tree-reference example entry, the consumer trait `CanDoXyz` occurs twice as
a fully expanded (non-reference) consumer node, once per delegation note
nesting it, because nested consumer names are never added to the rendered
set. -/
theorem c3_tree_reference_counterexample :
    ((ErrorFormatting.build_dependency_tree entryC3).map fun t =>
      ((ErrorFormatting.subtreeNodesFuel 8 t).filter fun n =>
        n.trait_type == some ("consumer trait".toList) && !n.is_reference
          && ("`CanDoXyz`".toList).isPrefixOf n.description).length) = some 2 := by
  decide

/-- C3, witness for the amended theorem at the concrete example entry and
its tree. -/
theorem c3_tree_reference_amended_witness :
    ErrorFormatting.build_dependency_tree entryC3 = some treeC3
      ∧ ErrorFormatting.RefSafe treeC3
      ∧ ErrorFormatting.build_nested_consumer_provider_nodes entryC3
          ⟨"CanDoXyz".toList, "A".toList⟩ ("A".toList) [("CanDoXyz".toList)]
        = [ErrorFormatting.DependencyNode.mk
            (("`".toList) ++ ("CanDoXyz".toList) ++ ("` for `".toList)
              ++ ("A".toList) ++ ("`".toList))
            (some ("consumer trait".toList)) none true []] :=
  ⟨rfl, c3_tree_reference_amended.1 entryC3 treeC3 rfl,
    c3_tree_reference_amended.2 entryC3 ⟨"CanDoXyz".toList, "A".toList⟩ ("A".toList) [("CanDoXyz".toList)]
      (by decide)⟩
